import Mathlib

set_option linter.unusedVariables false
set_option linter.unnecessarySeqFocus false
set_option linter.unreachableTactic false

/-!
Verification of the prefix-composition layer of the `objects` repository:
`PrefixedReader`, `PrefixedWriter` and `Prefixed` wrappers that address a
value inside nested containers through an ordered sequence of string key
segments, plus the reflect-backed `Map` container of `map.go`.

The embedding models Go interface values as the inductive type `Obj`.
Backing containers carry an explicit capability record `Caps` stating which
of the four interfaces (`Reader`, `SafeReader`, `Writer`, `SafeWriter`) the
dynamic value implements; the wrapper types implement exactly the
interfaces their Go method sets provide.  A Go call that cannot return
(a method call on a nil interface value, or a call that Go's type system
rules out) is modelled by the `panic` result.
-/

/-- Type tag (`Type` in the source).  The prefix layer passes tags through
to `Put` as the hint and never inspects them, so an opaque enumeration
suffices. -/
inductive Ty where
  | tmap : Ty
  | tslice : Ty
  | tstruct : Ty
  | tvalue : Ty
deriving DecidableEq

/-- Which capability interfaces a leaf backing container implements.
A Go concrete type has a fixed method set, so the flags are fixed per
object. -/
structure Caps where
  reader : Bool
  safeReader : Bool
  writer : Bool
  safeWriter : Bool
deriving DecidableEq

/-- A Go interface value (`any`) as seen by the prefix layer.

* `onil` — the nil interface value;
* `scalar` — an opaque non-container value (an integer, say);
* `mapo caps entries` — a leaf backing container holding an association
  list, implementing exactly the interfaces in `caps`; its read
  operations look keys up in `entries`, its safe lookup reports
  `Err.notFound` for an absent key;
* `erring caps code` — a leaf backing object whose safe operations always
  fail with the opaque backend error `code`, whose plain lookups report
  not-found, and whose plain `Put` returns a nil sub-writer;
* `preader key r` — `PrefixedReader{Key: key, R: r}`;
* `pwriter key w` — `PrefixedWriter{Key: key, W: w}`;
* `prefixed rk r wk w` — `Prefixed` embedding `PrefixedReader{rk, r}` and
  `PrefixedWriter{wk, w}`. -/
inductive Obj where
  | onil : Obj
  | scalar : Int → Obj
  | mapo : Caps → List (String × Obj) → Obj
  | erring : Caps → Int → Obj
  | preader : List String → Obj → Obj
  | pwriter : List String → Obj → Obj
  | prefixed : List String → Obj → List String → Obj → Obj

/-- The `Want` field of a structured error: a zero-value interface marker,
`Reader(nil)` or `Writer(nil)` in the source. -/
inductive Want where
  | readerW : Want
  | writerW : Want
deriving DecidableEq

mutual
/-- A Go `error` value as this layer sees it: one of the two sentinels
(`ErrNotFound`, `ErrUnexpectedType`), an opaque backend error, or a
structured `*Error`. -/
inductive Err where
  | notFound : Err
  | unexpectedType : Err
  | backend : Int → Err
  | wrapped : ErrorS → Err

/-- The structured `Error` of the source: operation name, full key path at
the failure point, the found value (`Got`, unset when the source omits
it), the expected capability (`Want`), and the wrapped cause (`Err`). -/
inductive ErrorS where
  | mk : String → List String → Option Obj → Option Want → Err → ErrorS
end

/-- `errors.Is(err, ErrNotFound)`: whether the cause chain of an error
bottoms out in the not-found sentinel.  Modelled from the spec: the
`Error` type's unwrapping ("matching for the purpose of 'is this a
not-found error' must unwrap nested causes") lives in a file that is not
among the staged sources; unwrapping follows the `Err` field. -/
def causeNotFound : Err → Bool
  | .notFound => true
  | .wrapped (.mk _ _ _ _ e) => causeNotFound e
  | _ => false

/-- Result of a safe (error-returning) operation.  `panic` marks a call
that does not return in Go: a method call on a nil interface value, or a
call the Go type system makes impossible. -/
inductive Res (α : Type) where
  | ok : α → Res α
  | err : Err → Res α
  | panic : Res α

/-- Result of a plain (boolean-style) operation, which can never produce
an error value, only succeed or panic. -/
inductive PRes (α : Type) where
  | ok : α → PRes α
  | panic : PRes α

/-- A backend write invocation performed during an operation (which
`Set`/`Del`/`Put` call reached a backing object, with its key).  The list
of effects of a call is the model's record of how the call touched the
store: an empty list means no backend write was invoked, hence the store
is unchanged. -/
inductive Effect where
  | eset : String → Effect
  | edel : String → Effect
  | eput : String → Effect

/-- Association-list lookup returning the value together with a size
bound, used for termination of the dispatch recursion. -/
def alookupS : (es : List (String × Obj)) → String → Option { v : Obj // sizeOf v < sizeOf es }
  | [], _ => none
  | (k, v) :: es, key =>
    if k = key then some ⟨v, by simp; omega⟩
    else match alookupS es key with
      | some ⟨u, hu⟩ => some ⟨u, by simp; omega⟩
      | none => none

/-- Plain association-list lookup (the view of `alookupS` without the
size bound). -/
def alookup (es : List (String × Obj)) (key : String) : Option Obj :=
  match alookupS es key with
  | some v => some v.val
  | none => none

/-- Whether the dynamic value implements `Reader` (type assertion
`.(Reader)`).  `PrefixedReader` and `Prefixed` have the `Get`/`List`/
`Type` methods; `PrefixedWriter` does not. -/
def isReader : Obj → Bool
  | .mapo c _ => c.reader
  | .erring c _ => c.reader
  | .preader _ _ => true
  | .prefixed _ _ _ _ => true
  | _ => false

/-- Whether the dynamic value implements `SafeReader` (type assertion
`.(SafeReader)`). -/
def isSafeReader : Obj → Bool
  | .mapo c _ => c.safeReader
  | .erring c _ => c.safeReader
  | .preader _ _ => true
  | .prefixed _ _ _ _ => true
  | _ => false

/-- Whether the dynamic value implements `Writer` (type assertion
`.(Writer)`). -/
def isWriter : Obj → Bool
  | .mapo c _ => c.writer
  | .erring c _ => c.writer
  | .pwriter _ _ => true
  | .prefixed _ _ _ _ => true
  | _ => false

/-- Whether the dynamic value implements `SafeWriter` (type assertion
`.(SafeWriter)`). -/
def isSafeWriter : Obj → Bool
  | .mapo c _ => c.safeWriter
  | .erring c _ => c.safeWriter
  | .pwriter _ _ => true
  | .prefixed _ _ _ _ => true
  | _ => false

/-- A writer-side wrapper value (one the `writer` flattening loop would
unwrap). -/
def isWrapperW : Obj → Bool
  | .pwriter _ _ => true
  | .prefixed _ _ _ _ => true
  | _ => false

theorem Obj.one_le_sizeOf (o : Obj) : 1 ≤ sizeOf o := by
  cases o <;> simp <;> omega

mutual

/-- Dispatch of `SafeReader.SafeGet` on a dynamic value.

* `mapo`: a safe backing container — returns the stored value, or the
  `ErrNotFound` sentinel when the key is absent;
* `erring`: fails with its opaque backend error;
* `preader`/`prefixed`: `PrefixedReader.SafeGet` (src/unnamed/part_000
  lines 74–103): resolve the base-relative container by walking the
  prefix with op `"Get"`, then perform one final lookup of `key`,
  preferring `SafeReader` and translating a plain not-found, wrapping any
  failure as `&Error{Op: "Get", Key: append(pr.Key, key), Got: r,
  Err: cause}`;
* other values have no such method (`panic`). -/
def objSafeGet (o : Obj) (key : String) : Res { v : Obj // sizeOf v < sizeOf o } :=
  match o with
  | .onil => .panic
  | .scalar _ => .panic
  | .mapo _ es =>
    match alookupS es key with
    | some ⟨v, hv⟩ => .ok ⟨v, by simp; omega⟩
    | none => .err .notFound
  | .erring _ code => .err (.backend code)
  | .pwriter _ _ => .panic
  | .preader pk r =>
    match walkSegs "Get" [] pk r with
    | .ok ⟨b, hb⟩ =>
      match lookupStep b key with
      | .ok ⟨v, hv⟩ => .ok ⟨v, by simp; omega⟩
      | .err cause => .err (.wrapped (.mk "Get" (pk ++ [key]) (some b) none cause))
      | .panic => .panic
    | .err e => .err e
    | .panic => .panic
  | .prefixed rk r _ _ =>
    match walkSegs "Get" [] rk r with
    | .ok ⟨b, hb⟩ =>
      match lookupStep b key with
      | .ok ⟨v, hv⟩ => .ok ⟨v, by simp; omega⟩
      | .err cause => .err (.wrapped (.mk "Get" (rk ++ [key]) (some b) none cause))
      | .panic => .panic
    | .err e => .err e
    | .panic => .panic
termination_by (sizeOf o, 0)
decreasing_by
  all_goals simp
  all_goals omega

/-- Dispatch of the plain `Reader.Get` (value, found-flag) on a dynamic
value.  `ok none` is `(nil, false)`.  For `preader`/`prefixed` this is the
convenience wrapper `Get` = (`SafeGet`, error == nil) of the source; for
`onil` it is a method call on a nil interface (panic). -/
def objRawGet (o : Obj) (key : String) : PRes (Option { v : Obj // sizeOf v < sizeOf o }) :=
  match o with
  | .onil => .panic
  | .scalar _ => .panic
  | .mapo _ es =>
    match alookupS es key with
    | some ⟨v, hv⟩ => .ok (some ⟨v, by simp; omega⟩)
    | none => .ok none
  | .erring _ _ => .ok none
  | .pwriter _ _ => .panic
  | .preader pk r =>
    match objSafeGet (.preader pk r) key with
    | .ok v => .ok (some v)
    | .err _ => .ok none
    | .panic => .panic
  | .prefixed rk r wk w =>
    match objSafeGet (.prefixed rk r wk w) key with
    | .ok v => .ok (some v)
    | .err _ => .ok none
    | .panic => .panic
termination_by (sizeOf o, 1)
decreasing_by
  all_goals simp
  all_goals omega

/-- One lookup step of the prefix walk, exactly as both `base` and the
final lookup of `SafeGet` dispatch it: `SafeReader` is preferred when the
container implements it (its error becomes the cause); otherwise the
plain `Reader.Get` is used and a false found-flag becomes the
`ErrNotFound` sentinel cause. -/
def lookupStep (r : Obj) (key : String) : Res { v : Obj // sizeOf v < sizeOf r } :=
  if isSafeReader r then objSafeGet r key
  else
    match objRawGet r key with
    | .ok (some v) => .ok v
    | .ok none => .err .notFound
    | .panic => .panic
termination_by (sizeOf r, 2)
decreasing_by
  all_goals exact Prod.Lex.right _ (by omega)

/-- The prefix walk `PrefixedReader.base` (src/unnamed/part_000 lines
105–144), recursing on the remaining segments; `done` is the list of
segments already consumed, so `done ++ [key]` is the source's
`pr.Key[:i+1]`.  At each segment: look the segment up in the current
container (`lookupStep`); on failure return `&Error{Op: op,
Key: pr.Key[:i+1], Got: r, Err: cause}`; on success the value must itself
implement `Reader`, else `&Error{Op: op, Key: pr.Key[:i+1], Got: v,
Want: Reader(nil), Err: ErrUnexpectedType}`; then it becomes the current
container.  An empty segment list returns the current container
unchanged. -/
def walkSegs (op : String) (done rest : List String) (r : Obj) : Res { v : Obj // sizeOf v ≤ sizeOf r } :=
  match rest with
  | [] => .ok ⟨r, le_refl _⟩
  | key :: rest' =>
    match lookupStep r key with
    | .err cause => .err (.wrapped (.mk op (done ++ [key]) (some r) none cause))
    | .panic => .panic
    | .ok ⟨v, hv⟩ =>
      if isReader v then
        match walkSegs op (done ++ [key]) rest' v with
        | .ok ⟨u, hu⟩ => .ok ⟨u, by omega⟩
        | .err e => .err e
        | .panic => .panic
      else .err (.wrapped (.mk op (done ++ [key]) (some v) (some .readerW) .unexpectedType))
termination_by (sizeOf r, rest.length + 3)
decreasing_by
  · exact Prod.Lex.right _ (by omega)
  · exact Prod.Lex.left _ _ (by omega)

/-- Dispatch of `Reader.List` on a dynamic value.  For
`preader`/`prefixed` this is `PrefixedReader.List` (src/unnamed/part_000
lines 61–68): resolve the base-relative container with op `"List"`, and
return nil (here `[]`) if resolution failed, else the resolved
container's listing. -/
def objList (o : Obj) : PRes (List String) :=
  match o with
  | .onil => .panic
  | .scalar _ => .panic
  | .mapo _ es => .ok (es.map Prod.fst)
  | .erring _ _ => .ok []
  | .pwriter _ _ => .panic
  | .preader pk r =>
    match walkSegs "List" [] pk r with
    | .ok ⟨b, _hb⟩ => objList b
    | .err _ => .ok []
    | .panic => .panic
  | .prefixed rk r _ _ =>
    match walkSegs "List" [] rk r with
    | .ok ⟨b, _hb⟩ => objList b
    | .err _ => .ok []
    | .panic => .panic
termination_by (sizeOf o, 0)
decreasing_by
  all_goals simp
  all_goals omega

end

/-- Forget the termination bound of a safe result. -/
def stripRes {p : Obj → Prop} : Res { v : Obj // p v } → Res Obj
  | .ok v => .ok v.val
  | .err e => .err e
  | .panic => .panic

/-- Forget the termination bound of a plain-lookup result. -/
def stripPRes {p : Obj → Prop} : PRes (Option { v : Obj // p v }) → PRes (Option Obj)
  | .ok (some v) => .ok (some v.val)
  | .ok none => .ok none
  | .panic => .panic

/-- `SafeReader.SafeGet` dispatch without the termination bound. -/
def objSafeGetP (o : Obj) (key : String) : Res Obj :=
  stripRes (objSafeGet o key)

/-- Plain `Reader.Get` dispatch without the termination bound. -/
def objRawGetP (o : Obj) (key : String) : PRes (Option Obj) :=
  stripPRes (objRawGet o key)

/-- One walk step without the termination bound. -/
def lookupStepP (r : Obj) (key : String) : Res Obj :=
  stripRes (lookupStep r key)

/-- The walk without the termination bound. -/
def walkSegsP (op : String) (done rest : List String) (r : Obj) : Res Obj :=
  stripRes (walkSegs op done rest r)

/-- `PrefixedReader.base`: resolve the wrapper's key sequence against its
base object for operation `op`. -/
def PrefixedReader.base (pk : List String) (r : Obj) (op : String) : Res Obj :=
  walkSegsP op [] pk r

/-- `PrefixedReader.SafeGet` for the wrapper with prefix `pk` over base
`r`. -/
def PrefixedReader.SafeGet (pk : List String) (r : Obj) (key : String) : Res Obj :=
  objSafeGetP (.preader pk r) key

/-- `PrefixedReader.Get`: `v, err := pr.SafeGet(ctx, key); return v,
err == nil`. -/
def PrefixedReader.Get (pk : List String) (r : Obj) (key : String) : PRes (Obj × Bool) :=
  match PrefixedReader.SafeGet pk r key with
  | .ok v => .ok (v, true)
  | .err _ => .ok (.onil, false)
  | .panic => .panic

/-- `PrefixedReader.List` for the wrapper with prefix `pk` over base
`r` (named `ListKeys` here because `List` would shadow the list type
inside the namespace). -/
def PrefixedReader.ListKeys (pk : List String) (r : Obj) : PRes (List String) :=
  objList (.preader pk r)

/-- The unwrap loop of `PrefixedReader.reader` (src/unnamed/part_000
lines 146–165): starting from the wrapper's base field, unwrap nested
`PrefixedReader`/`Prefixed` layers, prepending each unwrapped wrapper's
key sequence to the accumulated one, for at most the given number of loop
iterations; return the first non-wrapper base, or nil (`onil`) when the
bound is exhausted.  The source computes the accumulated key but returns
only the base reader.  `Key.Prepend` is modelled from the spec (its file
is not among the staged sources): "inserts `other`'s segments before the
receiver's own segments", i.e. the accumulated key becomes the unwrapped
wrapper's key followed by the old accumulated key. -/
def readerFlAux : Nat → Obj → List String → Obj
  | 0, _, _ => .onil
  | n + 1, r, key =>
    match r with
    | .preader k2 r2 => readerFlAux n r2 (k2 ++ key)
    | .prefixed rk rr _ _ => readerFlAux n rr (rk ++ key)
    | _ => r

/-- `PrefixedReader.reader` with the source's fixed bound of 128 loop
iterations, applied to a wrapper with key `pk` and base `r`. -/
def PrefixedReader.reader (pk : List String) (r : Obj) : Obj :=
  readerFlAux 128 r pk

/-- The unwrap loop of `PrefixedWriter.writer` (src/unnamed/part_000
lines 299–318): like the reader-side loop but over the writer chain,
returning both the base writer and the accumulated (flattened) key
sequence; `(nil, nil)` when the bound is exhausted.  `Key.Prepend` is
modelled from the spec as for the reader-side loop. -/
def writerFlAux : Nat → Obj → List String → Obj × List String
  | 0, _, _ => (.onil, [])
  | n + 1, w, key =>
    match w with
    | .pwriter k2 w2 => writerFlAux n w2 (k2 ++ key)
    | .prefixed _ _ wk w2 => writerFlAux n w2 (wk ++ key)
    | _ => (w, key)

/-- `PrefixedWriter.writer` with the source's fixed bound of 128 loop
iterations, applied to a wrapper with key `pk` and writer field `w`. -/
def PrefixedWriter.writer (pk : List String) (w : Obj) : Obj × List String :=
  writerFlAux 128 w pk

/-- The flattened base writer of a `PrefixedWriter`. -/
def writerBase (pk : List String) (w : Obj) : Obj :=
  (PrefixedWriter.writer pk w).1

/-- The flattened key sequence of a `PrefixedWriter`. -/
def writerKey (pk : List String) (w : Obj) : List String :=
  (PrefixedWriter.writer pk w).2

theorem listPair_one_le_sizeOf (es : List (String × Obj)) : 1 ≤ sizeOf es := by
  cases es <;> simp <;> omega

theorem readerFlAux_sizeOf (n : Nat) (r : Obj) (key : List String) :
    sizeOf (readerFlAux n r key) ≤ sizeOf r := by
  induction n generalizing r key with
  | zero => simpa [readerFlAux] using Obj.one_le_sizeOf r
  | succ n ih =>
    cases r <;> simp only [readerFlAux]
    case preader k2 r2 => have := ih r2 (k2 ++ key); simp; omega
    case prefixed rk rr wk ww => have := ih rr (rk ++ key); simp; omega
    all_goals simp

theorem writerFlAux_sizeOf (n : Nat) (w : Obj) (key : List String) :
    sizeOf (writerFlAux n w key).1 ≤ sizeOf w := by
  induction n generalizing w key with
  | zero => simpa [writerFlAux] using Obj.one_le_sizeOf w
  | succ n ih =>
    cases w <;> simp only [writerFlAux]
    case pwriter k2 w2 => have := ih w2 (k2 ++ key); simp; omega
    case prefixed rk rr wk ww => have := ih ww (wk ++ key); simp; omega
    all_goals simp

theorem writerBase_sizeOf (pk : List String) (w : Obj) :
    sizeOf (writerBase pk w) ≤ sizeOf w :=
  writerFlAux_sizeOf 128 w pk

theorem lexLe {a b m n : Nat} (h : a ≤ b) (h2 : m < n) :
    Prod.Lex (· < ·) (· < ·) (a, m) (b, n) := by
  rcases lt_or_eq_of_le h with h' | h'
  · exact Prod.Lex.left _ _ h'
  · subst h'
    exact Prod.Lex.right _ h2

theorem lex3b {a a' b b' c c' : Nat} (h1 : a ≤ a') (h2 : b < b') :
    Prod.Lex (· < ·) (Prod.Lex (· < ·) (· < ·)) (a, b, c) (a', b', c') := by
  rcases lt_or_eq_of_le h1 with h | h
  · exact Prod.Lex.left _ _ h
  · subst h
    exact Prod.Lex.right _ (Prod.Lex.left _ _ h2)

theorem lex3c {a a' b c c' : Nat} (h1 : a ≤ a') (h3 : c < c') :
    Prod.Lex (· < ·) (Prod.Lex (· < ·) (· < ·)) (a, b, c) (a', b, c') := by
  rcases lt_or_eq_of_le h1 with h | h
  · exact Prod.Lex.left _ _ h
  · subst h
    exact Prod.Lex.right _ (Prod.Lex.right _ h3)

mutual

/-- Dispatch of plain `Writer.Del`.  For `pwriter`/`prefixed` this is
`PrefixedWriter.Del` (src/unnamed/part_000 lines 167–169):
`return pw.SafeDel(ctx, key) == nil`. -/
def objDel (o : Obj) (key : String) : List Effect × PRes Bool :=
  match o with
  | .onil => ([], .panic)
  | .scalar _ => ([], .panic)
  | .preader _ _ => ([], .panic)
  | .mapo _ es => ([.edel key], .ok (alookup es key).isSome)
  | .erring _ _ => ([.edel key], .ok false)
  | .pwriter pk w =>
    match objSafeDel (.pwriter pk w) key with
    | (effs, .ok _) => (effs, .ok true)
    | (effs, .err _) => (effs, .ok false)
    | (effs, .panic) => (effs, .panic)
  | .prefixed rk r wk w =>
    match objSafeDel (.prefixed rk r wk w) key with
    | (effs, .ok _) => (effs, .ok true)
    | (effs, .err _) => (effs, .ok false)
    | (effs, .panic) => (effs, .panic)
termination_by (sizeOf o, 1, 0)
decreasing_by
  all_goals try have hwb := writerBase_sizeOf pk w
  all_goals
    first
      | exact lex3c (by omega) (by simp <;> omega)
      | exact lex3b (by omega) (by omega)
      | exact lex3b (by omega) (by simp <;> omega)
      | exact Prod.Lex.left _ _ (by simp <;> omega)

/-- Dispatch of plain `Writer.Set`.  For `pwriter`/`prefixed` this is
`PrefixedWriter.Set` (src/unnamed/part_000 lines 171–174):
`ok, _ := pw.SafeSet(ctx, key, value); return ok`. -/
def objSet (o : Obj) (key : String) (value : Obj) : List Effect × PRes Bool :=
  match o with
  | .onil => ([], .panic)
  | .scalar _ => ([], .panic)
  | .preader _ _ => ([], .panic)
  | .mapo _ es => ([.eset key], .ok (alookup es key).isNone)
  | .erring _ _ => ([.eset key], .ok false)
  | .pwriter pk w =>
    match objSafeSet (.pwriter pk w) key value with
    | (effs, .ok b) => (effs, .ok b)
    | (effs, .err _) => (effs, .ok false)
    | (effs, .panic) => (effs, .panic)
  | .prefixed rk r wk w =>
    match objSafeSet (.prefixed rk r wk w) key value with
    | (effs, .ok b) => (effs, .ok b)
    | (effs, .err _) => (effs, .ok false)
    | (effs, .panic) => (effs, .panic)
termination_by (sizeOf o, 1, 0)
decreasing_by
  all_goals try have hwb := writerBase_sizeOf pk w
  all_goals
    first
      | exact lex3c (by omega) (by simp <;> omega)
      | exact lex3b (by omega) (by omega)
      | exact lex3b (by omega) (by simp <;> omega)
      | exact Prod.Lex.left _ _ (by simp <;> omega)

/-- Dispatch of plain `Writer.Put`.  A `mapo` backend returns the stored
value at the key, or materializes a fresh empty container per the hint
when absent; an `erring` backend returns a nil sub-writer; for
`pwriter`/`prefixed` this is `PrefixedWriter.Put` (src/unnamed/part_000
lines 176–179): `w, _ := pw.SafePut(ctx, key, hint); return w`, which is
nil when SafePut failed. -/
def objPut (o : Obj) (key : String) (hint : Ty) : List Effect × PRes { u : Obj // sizeOf u ≤ sizeOf o } :=
  match o with
  | .onil => ([], .panic)
  | .scalar _ => ([], .panic)
  | .preader _ _ => ([], .panic)
  | .mapo c es =>
    match alookupS es key with
    | some ⟨v, hv⟩ => ([.eput key], .ok ⟨v, by simp; omega⟩)
    | none => ([.eput key], .ok ⟨.mapo c [], by have := listPair_one_le_sizeOf es; simp <;> omega⟩)
  | .erring c code => ([.eput key], .ok ⟨.onil, by have := Obj.one_le_sizeOf (Obj.erring c code); simp <;> omega⟩)
  | .pwriter pk w =>
    match objSafePut (.pwriter pk w) key hint with
    | (effs, .ok u) => (effs, .ok u)
    | (effs, .err _) => (effs, .ok ⟨.onil, by simp <;> omega⟩)
    | (effs, .panic) => (effs, .panic)
  | .prefixed rk r wk w =>
    match objSafePut (.prefixed rk r wk w) key hint with
    | (effs, .ok u) => (effs, .ok u)
    | (effs, .err _) => (effs, .ok ⟨.onil, by simp <;> omega⟩)
    | (effs, .panic) => (effs, .panic)
termination_by (sizeOf o, 1, 0)
decreasing_by
  all_goals try have hwb := writerBase_sizeOf pk w
  all_goals
    first
      | exact lex3c (by omega) (by simp <;> omega)
      | exact lex3b (by omega) (by omega)
      | exact lex3b (by omega) (by simp <;> omega)
      | exact Prod.Lex.left _ _ (by simp <;> omega)

/-- Dispatch of `SafeWriter.SafeDel`.  A `mapo` backend deletes (reports
not-found when the key is absent); an `erring` backend fails with its
backend error; for `pwriter`/`prefixed` this is
`PrefixedWriter.SafeDel`. -/
def objSafeDel (o : Obj) (key : String) : List Effect × Res Unit :=
  match o with
  | .onil => ([], .panic)
  | .scalar _ => ([], .panic)
  | .preader _ _ => ([], .panic)
  | .mapo _ es =>
    ([.edel key], if (alookup es key).isSome then .ok () else .err .notFound)
  | .erring _ code => ([.edel key], .err (.backend code))
  | .pwriter pk w => pwSafeDel pk w key
  | .prefixed _ _ wk w => pwSafeDel wk w key
termination_by (sizeOf o, 0, 0)
decreasing_by
  all_goals try have hwb := writerBase_sizeOf pk w
  all_goals
    first
      | exact lex3c (by omega) (by simp <;> omega)
      | exact lex3b (by omega) (by omega)
      | exact lex3b (by omega) (by simp <;> omega)
      | exact Prod.Lex.left _ _ (by simp <;> omega)

/-- `PrefixedWriter.SafeDel` (src/unnamed/part_000 lines 181–220) for a
wrapper with key `pk` and writer field `w`: resolve the flattened write
base as a reader (`PrefixedWriter.reader`, lines 283–297 — failing with
`&Error{Op: "Del", Key: pw.Key, Got: pw.W, Want: Reader(nil),
Err: ErrUnexpectedType}` when the base is no Reader), walk the flattened
key, then delete, preferring `SafeWriter` (wrapping its error at
`append(pw.Key, key)`) over `Writer` (translating a false flag into
`ErrNotFound` at the same path), else fail with `UnexpectedType`
wanting a Writer. -/
def pwSafeDel (pk : List String) (w : Obj) (key : String) : List Effect × Res Unit :=
  if isReader (writerBase pk w) then
    match walkSegs "Del" [] (writerKey pk w) (writerBase pk w) with
    | .err e => ([], .err e)
    | .panic => ([], .panic)
    | .ok ⟨b, hb⟩ =>
      if isSafeWriter b then
        match objSafeDel b key with
        | (effs, .ok _) => (effs, .ok ())
        | (effs, .err e) => (effs, .err (.wrapped (.mk "Del" (pk ++ [key]) none none e)))
        | (effs, .panic) => (effs, .panic)
      else if isWriter b then
        match objDel b key with
        | (effs, .ok true) => (effs, .ok ())
        | (effs, .ok false) => (effs, .err (.wrapped (.mk "Del" (pk ++ [key]) none none .notFound)))
        | (effs, .panic) => (effs, .panic)
      else ([], .err (.wrapped (.mk "Del" (pk ++ [key]) (some b) (some .writerW) .unexpectedType)))
  else ([], .err (.wrapped (.mk "Del" pk (some w) (some .readerW) .unexpectedType)))
termination_by (sizeOf w, 3, 0)
decreasing_by
  all_goals try have hwb := writerBase_sizeOf pk w
  all_goals
    first
      | exact lex3c (by omega) (by simp <;> omega)
      | exact lex3b (by omega) (by omega)
      | exact lex3b (by omega) (by simp <;> omega)
      | exact Prod.Lex.left _ _ (by simp <;> omega)

/-- Dispatch of `SafeWriter.SafeSet`.  A `mapo` backend sets (always
succeeding, reporting whether the key was created); an `erring` backend
fails with its backend error; for `pwriter`/`prefixed` this is
`PrefixedWriter.SafeSet`. -/
def objSafeSet (o : Obj) (key : String) (value : Obj) : List Effect × Res Bool :=
  match o with
  | .onil => ([], .panic)
  | .scalar _ => ([], .panic)
  | .preader _ _ => ([], .panic)
  | .mapo _ es => ([.eset key], .ok (alookup es key).isNone)
  | .erring _ code => ([.eset key], .err (.backend code))
  | .pwriter pk w => pwSafeSet pk w key value
  | .prefixed _ _ wk w => pwSafeSet wk w key value
termination_by (sizeOf o, 0, 0)
decreasing_by
  all_goals try have hwb := writerBase_sizeOf pk w
  all_goals
    first
      | exact lex3c (by omega) (by simp <;> omega)
      | exact lex3b (by omega) (by omega)
      | exact lex3b (by omega) (by simp <;> omega)
      | exact Prod.Lex.left _ _ (by simp <;> omega)

/-- `PrefixedWriter.SafeSet` (src/unnamed/part_000 lines 222–256) for a
wrapper with key `pk` and writer field `w`: resolve the flattened write
base as a reader (failing with `UnexpectedType` at `pw.Key` with
`Got = pw.W` when it is no Reader), walk the flattened key, then set,
preferring `SafeWriter` (wrapping its error at `append(pw.Key, key)`);
with only plain `Writer` the boolean is passed through untranslated;
else fail with `UnexpectedType` wanting a Writer. -/
def pwSafeSet (pk : List String) (w : Obj) (key : String) (value : Obj) : List Effect × Res Bool :=
  if isReader (writerBase pk w) then
    match walkSegs "Set" [] (writerKey pk w) (writerBase pk w) with
    | .err e => ([], .err e)
    | .panic => ([], .panic)
    | .ok ⟨b, hb⟩ =>
      if isSafeWriter b then
        match objSafeSet b key value with
        | (effs, .ok ok) => (effs, .ok ok)
        | (effs, .err e) => (effs, .err (.wrapped (.mk "Set" (pk ++ [key]) none none e)))
        | (effs, .panic) => (effs, .panic)
      else if isWriter b then
        match objSet b key value with
        | (effs, .ok ok) => (effs, .ok ok)
        | (effs, .panic) => (effs, .panic)
      else ([], .err (.wrapped (.mk "Set" (pk ++ [key]) (some b) (some .writerW) .unexpectedType)))
  else ([], .err (.wrapped (.mk "Set" pk (some w) (some .readerW) .unexpectedType)))
termination_by (sizeOf w, 3, 0)
decreasing_by
  all_goals try have hwb := writerBase_sizeOf pk w
  all_goals
    first
      | exact lex3c (by omega) (by simp <;> omega)
      | exact lex3b (by omega) (by omega)
      | exact lex3b (by omega) (by simp <;> omega)
      | exact Prod.Lex.left _ _ (by simp <;> omega)

/-- Dispatch of `SafeWriter.SafePut`.  A `mapo` backend returns the
stored value or materializes a fresh empty container; an `erring`
backend fails with its backend error; for `pwriter`/`prefixed` this is
`PrefixedWriter.SafePut`. -/
def objSafePut (o : Obj) (key : String) (hint : Ty) : List Effect × Res { u : Obj // sizeOf u ≤ sizeOf o } :=
  match o with
  | .onil => ([], .panic)
  | .scalar _ => ([], .panic)
  | .preader _ _ => ([], .panic)
  | .mapo c es =>
    match alookupS es key with
    | some ⟨v, hv⟩ => ([.eput key], .ok ⟨v, by simp; omega⟩)
    | none => ([.eput key], .ok ⟨.mapo c [], by have := listPair_one_le_sizeOf es; simp <;> omega⟩)
  | .erring _ code => ([.eput key], .err (.backend code))
  | .pwriter pk w =>
    match pwSafePut pk w key hint with
    | (effs, .ok ⟨u, hu⟩) => (effs, .ok ⟨u, by simp; omega⟩)
    | (effs, .err e) => (effs, .err e)
    | (effs, .panic) => (effs, .panic)
  | .prefixed rk r wk w =>
    match pwSafePut wk w key hint with
    | (effs, .ok ⟨u, hu⟩) => (effs, .ok ⟨u, by simp; omega⟩)
    | (effs, .err e) => (effs, .err e)
    | (effs, .panic) => (effs, .panic)
termination_by (sizeOf o, 0, 0)
decreasing_by
  all_goals try have hwb := writerBase_sizeOf pk w
  all_goals
    first
      | exact lex3c (by omega) (by simp <;> omega)
      | exact lex3b (by omega) (by omega)
      | exact lex3b (by omega) (by simp <;> omega)
      | exact Prod.Lex.left _ _ (by simp <;> omega)

/-- `PrefixedWriter.SafePut` (src/unnamed/part_000 lines 258–281) for a
wrapper with key `pk` and writer field `w`: flatten the writer chain,
append the trailing key to the flattened key sequence (the normalized
key), and walk that sequence with `putSegs` starting from the flattened
base. -/
def pwSafePut (pk : List String) (w : Obj) (key : String) (hint : Ty) : List Effect × Res { u : Obj // sizeOf u ≤ sizeOf w } :=
  match putSegs [] (writerKey pk w ++ [key]) hint (writerBase pk w) with
  | (effs, .ok ⟨u, hu⟩) => (effs, .ok ⟨u, le_trans hu (writerBase_sizeOf pk w)⟩)
  | (effs, .err e) => (effs, .err e)
  | (effs, .panic) => (effs, .panic)
termination_by (sizeOf w, 3, 0)
decreasing_by
  all_goals try have hwb := writerBase_sizeOf pk w
  all_goals
    first
      | exact lex3c (by omega) (by simp <;> omega)
      | exact lex3b (by omega) (by omega)
      | exact lex3b (by omega) (by simp <;> omega)
      | exact Prod.Lex.left _ _ (by simp <;> omega)

/-- The segment loop of `PrefixedWriter.SafePut` (src/unnamed/part_000
lines 265–278), recursing on the remaining segments of the normalized
key; `done` is the part already consumed, so `done ++ [key]` is the
source's `normkey[:i+1]`.  At each segment: when the current object
implements `SafeWriter`, call its `SafePut` and fail with `&Error{Op:
"Put", Key: normkey[:i+1], Got: sw, Err: err}` on error; otherwise call
the plain `Put` with no check of the returned sub-writer.  The returned
object of each step becomes the object for the next step. -/
def putSegs (done rest : List String) (hint : Ty) (w : Obj) : List Effect × Res { u : Obj // sizeOf u ≤ sizeOf w } :=
  match rest with
  | [] => ([], .ok ⟨w, le_refl _⟩)
  | key :: rest' =>
    if isSafeWriter w then
      match objSafePut w key hint with
      | (effs, .err e) => (effs, .err (.wrapped (.mk "Put" (done ++ [key]) (some w) none e)))
      | (effs, .panic) => (effs, .panic)
      | (effs, .ok ⟨v, hv⟩) =>
        match putSegs (done ++ [key]) rest' hint v with
        | (effs2, .ok ⟨u, hu⟩) => (effs ++ effs2, .ok ⟨u, by omega⟩)
        | (effs2, .err e) => (effs ++ effs2, .err e)
        | (effs2, .panic) => (effs ++ effs2, .panic)
    else
      match objPut w key hint with
      | (effs, .panic) => (effs, .panic)
      | (effs, .ok ⟨v, hv⟩) =>
        match putSegs (done ++ [key]) rest' hint v with
        | (effs2, .ok ⟨u, hu⟩) => (effs ++ effs2, .ok ⟨u, by omega⟩)
        | (effs2, .err e) => (effs ++ effs2, .err e)
        | (effs2, .panic) => (effs ++ effs2, .panic)
termination_by (sizeOf w, 2, rest.length)
decreasing_by
  all_goals try have hwb := writerBase_sizeOf pk w
  all_goals
    first
      | exact lex3c (by omega) (by simp <;> omega)
      | exact lex3b (by omega) (by omega)
      | exact lex3b (by omega) (by simp <;> omega)
      | exact Prod.Lex.left _ _ (by simp <;> omega)

end

/-- `PrefixedWriter.SafeDel` as the wrapper-level operation. -/
def PrefixedWriter.SafeDel (pk : List String) (w : Obj) (key : String) : List Effect × Res Unit :=
  objSafeDel (.pwriter pk w) key

/-- `PrefixedWriter.SafeSet` as the wrapper-level operation. -/
def PrefixedWriter.SafeSet (pk : List String) (w : Obj) (key : String) (value : Obj) : List Effect × Res Bool :=
  objSafeSet (.pwriter pk w) key value

/-- `PrefixedWriter.SafePut` as the wrapper-level operation (without the
termination bound on the returned sub-writer). -/
def PrefixedWriter.SafePut (pk : List String) (w : Obj) (key : String) (hint : Ty) : List Effect × Res Obj :=
  match objSafePut (.pwriter pk w) key hint with
  | (effs, r) => (effs, stripRes r)

/-- `PrefixedWriter.Del` as the wrapper-level operation. -/
def PrefixedWriter.Del (pk : List String) (w : Obj) (key : String) : List Effect × PRes Bool :=
  objDel (.pwriter pk w) key

/-- `PrefixedWriter.Set` as the wrapper-level operation. -/
def PrefixedWriter.Set (pk : List String) (w : Obj) (key : String) (value : Obj) : List Effect × PRes Bool :=
  objSet (.pwriter pk w) key value

/-- The normalized-key walk of `SafePut` without the termination
bound. -/
def putSegsP (done rest : List String) (hint : Ty) (w : Obj) : List Effect × Res Obj :=
  match putSegs done rest hint w with
  | (effs, r) => (effs, stripRes r)

/-- Strip the termination bound of a plain `Put` result. -/
def stripPW {p : Obj → Prop} : PRes { u : Obj // p u } → PRes Obj
  | .ok u => .ok u.val
  | .panic => .panic

/-- Plain `Writer.Put` dispatch without the termination bound. -/
def objPutP (o : Obj) (key : String) (hint : Ty) : List Effect × PRes Obj :=
  match objPut o key hint with
  | (effs, r) => (effs, stripPW r)

/-- `SafeWriter.SafePut` dispatch without the termination bound. -/
def objSafePutP (o : Obj) (key : String) (hint : Ty) : List Effect × Res Obj :=
  match objSafePut o key hint with
  | (effs, r) => (effs, stripRes r)

/-- Number of wrapper layers `PrefixedWriter.writer` would unwrap: the
length of the `pwriter`/`prefixed` chain along writer fields. -/
def chainDepthW : Obj → Nat
  | .pwriter _ w => chainDepthW w + 1
  | .prefixed _ _ _ w => chainDepthW w + 1
  | _ => 0

/-- The innermost non-wrapper base along the writer chain. -/
def chainBaseW : Obj → Obj
  | .pwriter _ w => chainBaseW w
  | .prefixed _ _ _ w => chainBaseW w
  | o => o

/-- The key segments the writer-chain unwrapping prepends (innermost
wrapper's keys first). -/
def chainKeysW : Obj → List String
  | .pwriter k w => chainKeysW w ++ k
  | .prefixed _ _ wk w => chainKeysW w ++ wk
  | _ => []

/-- A writer chain of the given number of nested `PrefixedWriter`
wrappers over an all-capability empty map, used to exhibit the depth
bound. -/
def nestPW : Nat → Obj
  | 0 => .mapo ⟨true, true, true, true⟩ []
  | n + 1 => .pwriter [] (nestPW n)

/-- Number of wrapper layers `PrefixedReader.reader` would unwrap: the
length of the `preader`/`prefixed` chain along reader fields. -/
def chainDepthR : Obj → Nat
  | .preader _ r => chainDepthR r + 1
  | .prefixed _ r _ _ => chainDepthR r + 1
  | _ => 0

/-- The innermost non-wrapper base along the reader chain. -/
def chainBaseR : Obj → Obj
  | .preader _ r => chainBaseR r
  | .prefixed _ r _ _ => chainBaseR r
  | o => o

/-- Whether the `SafePut` walk over the given remaining segments,
starting at the given object, ever holds an object implementing
`SafeWriter` at a step (following plain `Put` results exactly as the
walk does). -/
def chainHasSafeW (rest : List String) (hint : Ty) (w : Obj) : Bool :=
  match rest with
  | [] => false
  | key :: rest' =>
    if isSafeWriter w then true
    else
      match objPut w key hint with
      | (_, .ok ⟨v, hv⟩) => chainHasSafeW rest' hint v
      | (_, .panic) => false
termination_by (sizeOf w, rest.length)
decreasing_by
  exact lexLe hv (by simp)

/-- Agreement of two safe-get results up to the error value: same
success value, or both failing, or both panicking. -/
def resAgree : Res Obj → Res Obj → Prop
  | .ok v, .ok u => v = u
  | .err _, .err _ => True
  | .panic, .panic => True
  | _, _ => False

/-- A value stored in a Go `map[string]any`, as `Map.SafeGet` of
src/map.go reads it back through `reflect`. -/
inductive GoVal where
  | vnil : GoVal
  | vint : Int → GoVal
  | vstr : String → GoVal
deriving DecidableEq

/-- `reflect.Value.IsZero` on a valid value of element type `any`
(interface kind): true exactly for the nil interface value. -/
def isZeroIface : GoVal → Bool
  | .vnil => true
  | _ => false

/-- Association-list view of the Go map's contents. -/
def glookup : List (String × GoVal) → String → Option GoVal
  | [], _ => none
  | (k, v) :: m, key => if k = key then some v else glookup m key

/-- Outcome of `Map.SafeGet`: a value with a nil error, the
`&Error{Op: "Get", Key: []string{key}, Err: ErrNotFound}` return, or a
runtime panic. -/
inductive MapRes where
  | ok : GoVal → MapRes
  | errNotFound : MapRes
  | panicked : MapRes
deriving DecidableEq

/-- `Map.SafeGet` of src/map.go (lines 28–55) over a `map[string]any`:
`v := m.v.MapIndex(k)` is the invalid zero `reflect.Value` when `key` is
absent, and `reflect.Value.IsZero` panics on an invalid Value, so the
absent case panics; when the key is present, the element Value has
interface kind and `v.IsZero()` is true exactly when the stored
interface value is nil, in which case the `case v.IsZero()` branch
returns the `ErrNotFound` structured error.  Otherwise the stored value
is returned with a nil error (`v.CanInterface()` is always true for a
value read from a map element, and `tryMake` is the identity on the
scalar values modelled here). -/
def Map.SafeGet (m : List (String × GoVal)) (key : String) : MapRes :=
  match glookup m key with
  | none => .panicked
  | some v => if isZeroIface v then .errNotFound else .ok v

theorem alookupS_val (es : List (String × Obj)) (key : String) :
    alookup es key = (alookupS es key).map Subtype.val := by
  rw [alookup]
  cases alookupS es key <;> simp

theorem objSafeGetP_onil (key : String) : objSafeGetP .onil key = .panic := by
  rw [objSafeGetP, objSafeGet.eq_def]
  rfl

theorem objSafeGetP_scalar (n : Int) (key : String) :
    objSafeGetP (.scalar n) key = .panic := by
  rw [objSafeGetP, objSafeGet.eq_def]
  rfl

theorem objSafeGetP_pwriter (pk : List String) (w : Obj) (key : String) :
    objSafeGetP (.pwriter pk w) key = .panic := by
  rw [objSafeGetP, objSafeGet.eq_def]
  rfl

theorem objSafeGetP_erring (c : Caps) (code : Int) (key : String) :
    objSafeGetP (.erring c code) key = .err (.backend code) := by
  rw [objSafeGetP, objSafeGet.eq_def]
  rfl

theorem objSafeGetP_mapo (c : Caps) (es : List (String × Obj)) (key : String) :
    objSafeGetP (.mapo c es) key =
      (match alookup es key with
       | some v => .ok v
       | none => .err .notFound) := by
  rw [objSafeGetP, objSafeGet.eq_def, alookupS_val]
  cases h : alookupS es key <;> simp [h, stripRes]

theorem objSafeGetP_preader (pk : List String) (r : Obj) (key : String) :
    objSafeGetP (.preader pk r) key =
      (match walkSegsP "Get" [] pk r with
       | .ok b =>
         (match lookupStepP b key with
          | .ok v => .ok v
          | .err cause => .err (.wrapped (.mk "Get" (pk ++ [key]) (some b) none cause))
          | .panic => .panic)
       | .err e => .err e
       | .panic => .panic) := by
  rw [objSafeGetP, objSafeGet.eq_def, walkSegsP]
  cases h : walkSegs "Get" [] pk r with
  | ok b =>
    simp only [h, stripRes, lookupStepP]
    cases h2 : lookupStep b.val key <;> simp [h2, stripRes]
  | err e => simp [h, stripRes]
  | panic => simp [h, stripRes]

theorem objSafeGetP_prefixed (rk : List String) (r : Obj) (wk : List String) (w : Obj) (key : String) :
    objSafeGetP (.prefixed rk r wk w) key =
      (match walkSegsP "Get" [] rk r with
       | .ok b =>
         (match lookupStepP b key with
          | .ok v => .ok v
          | .err cause => .err (.wrapped (.mk "Get" (rk ++ [key]) (some b) none cause))
          | .panic => .panic)
       | .err e => .err e
       | .panic => .panic) := by
  rw [objSafeGetP, objSafeGet.eq_def, walkSegsP]
  cases h : walkSegs "Get" [] rk r with
  | ok b =>
    simp only [h, stripRes, lookupStepP]
    cases h2 : lookupStep b.val key <;> simp [h2, stripRes]
  | err e => simp [h, stripRes]
  | panic => simp [h, stripRes]

theorem objRawGetP_onil (key : String) : objRawGetP .onil key = .panic := by
  rw [objRawGetP, objRawGet.eq_def]
  rfl

theorem objRawGetP_scalar (n : Int) (key : String) :
    objRawGetP (.scalar n) key = .panic := by
  rw [objRawGetP, objRawGet.eq_def]
  rfl

theorem objRawGetP_pwriter (pk : List String) (w : Obj) (key : String) :
    objRawGetP (.pwriter pk w) key = .panic := by
  rw [objRawGetP, objRawGet.eq_def]
  rfl

theorem objRawGetP_erring (c : Caps) (code : Int) (key : String) :
    objRawGetP (.erring c code) key = .ok none := by
  rw [objRawGetP, objRawGet.eq_def]
  rfl

theorem objRawGetP_mapo (c : Caps) (es : List (String × Obj)) (key : String) :
    objRawGetP (.mapo c es) key = .ok (alookup es key) := by
  rw [objRawGetP, objRawGet.eq_def, alookupS_val]
  cases h : alookupS es key <;> simp [h, stripPRes]

theorem objRawGetP_preader (pk : List String) (r : Obj) (key : String) :
    objRawGetP (.preader pk r) key =
      (match objSafeGetP (.preader pk r) key with
       | .ok v => .ok (some v)
       | .err _ => .ok none
       | .panic => .panic) := by
  rw [objRawGetP, objRawGet.eq_def, objSafeGetP]
  cases h : objSafeGet (.preader pk r) key <;> simp [h, stripRes, stripPRes]

theorem objRawGetP_prefixed (rk : List String) (r : Obj) (wk : List String) (w : Obj) (key : String) :
    objRawGetP (.prefixed rk r wk w) key =
      (match objSafeGetP (.prefixed rk r wk w) key with
       | .ok v => .ok (some v)
       | .err _ => .ok none
       | .panic => .panic) := by
  rw [objRawGetP, objRawGet.eq_def, objSafeGetP]
  cases h : objSafeGet (.prefixed rk r wk w) key <;> simp [h, stripRes, stripPRes]

theorem lookupStepP_eq (r : Obj) (key : String) :
    lookupStepP r key =
      (if isSafeReader r then objSafeGetP r key
       else
        match objRawGetP r key with
        | .ok (some v) => .ok v
        | .ok none => .err .notFound
        | .panic => .panic) := by
  rw [lookupStepP, lookupStep.eq_def]
  by_cases h : isSafeReader r
  · simp only [h, if_true]
    rw [objSafeGetP]
  · simp only [h, if_false, objRawGetP]
    cases h2 : objRawGet r key with
    | ok v => cases v <;> simp [h2, stripRes, stripPRes]
    | panic => simp [h2, stripRes, stripPRes]

theorem walkSegsP_nil (op : String) (done : List String) (r : Obj) :
    walkSegsP op done [] r = .ok r := by
  rw [walkSegsP, walkSegs.eq_def]
  rfl

theorem walkSegsP_cons (op : String) (done : List String) (key : String)
    (rest : List String) (r : Obj) :
    walkSegsP op done (key :: rest) r =
      (match lookupStepP r key with
       | .err cause => .err (.wrapped (.mk op (done ++ [key]) (some r) none cause))
       | .panic => .panic
       | .ok v =>
         if isReader v then walkSegsP op (done ++ [key]) rest v
         else .err (.wrapped (.mk op (done ++ [key]) (some v) (some .readerW) .unexpectedType))) := by
  rw [walkSegsP, walkSegs.eq_def, lookupStepP]
  cases h : lookupStep r key with
  | ok v =>
    by_cases h3 : isReader v.val
    · simp only [h, h3, stripRes, if_true, walkSegsP]
      cases h2 : walkSegs op (done ++ [key]) rest v.val <;> simp [h2, stripRes]
    · simp [h, h3, stripRes]
  | err e => simp [h, stripRes]
  | panic => simp [h, stripRes]

theorem objList_onil : objList .onil = .panic := by
  rw [objList.eq_def]

theorem objList_scalar (n : Int) : objList (.scalar n) = .panic := by
  rw [objList.eq_def]

theorem objList_pwriter (pk : List String) (w : Obj) :
    objList (.pwriter pk w) = .panic := by
  rw [objList.eq_def]

theorem objList_erring (c : Caps) (code : Int) : objList (.erring c code) = .ok [] := by
  rw [objList.eq_def]

theorem objList_mapo (c : Caps) (es : List (String × Obj)) :
    objList (.mapo c es) = .ok (es.map Prod.fst) := by
  rw [objList.eq_def]

theorem objList_preader (pk : List String) (r : Obj) :
    objList (.preader pk r) =
      (match walkSegsP "List" [] pk r with
       | .ok b => objList b
       | .err _ => .ok []
       | .panic => .panic) := by
  rw [objList.eq_def, walkSegsP]
  cases h : walkSegs "List" [] pk r <;> simp [h, stripRes]

theorem objList_prefixed (rk : List String) (r : Obj) (wk : List String) (w : Obj) :
    objList (.prefixed rk r wk w) =
      (match walkSegsP "List" [] rk r with
       | .ok b => objList b
       | .err _ => .ok []
       | .panic => .panic) := by
  rw [objList.eq_def, walkSegsP]
  cases h : walkSegs "List" [] rk r <;> simp [h, stripRes]

theorem objSafeDel_onil (key : String) : objSafeDel .onil key = ([], .panic) := by
  rw [objSafeDel.eq_def]

theorem objSafeDel_scalar (n : Int) (key : String) :
    objSafeDel (.scalar n) key = ([], .panic) := by
  rw [objSafeDel.eq_def]

theorem objSafeDel_preader (pk : List String) (r : Obj) (key : String) :
    objSafeDel (.preader pk r) key = ([], .panic) := by
  rw [objSafeDel.eq_def]

theorem objSafeDel_mapo (c : Caps) (es : List (String × Obj)) (key : String) :
    objSafeDel (.mapo c es) key =
      ([.edel key], if (alookup es key).isSome then .ok () else .err .notFound) := by
  rw [objSafeDel.eq_def]

theorem objSafeDel_erring (c : Caps) (code : Int) (key : String) :
    objSafeDel (.erring c code) key = ([.edel key], .err (.backend code)) := by
  rw [objSafeDel.eq_def]

theorem objSafeDel_pwriter (pk : List String) (w : Obj) (key : String) :
    objSafeDel (.pwriter pk w) key = pwSafeDel pk w key := by
  rw [objSafeDel.eq_def]

theorem objSafeDel_prefixed (rk : List String) (r : Obj) (wk : List String) (w : Obj) (key : String) :
    objSafeDel (.prefixed rk r wk w) key = pwSafeDel wk w key := by
  rw [objSafeDel.eq_def]

theorem objSafeSet_onil (key : String) (value : Obj) :
    objSafeSet .onil key value = ([], .panic) := by
  rw [objSafeSet.eq_def]

theorem objSafeSet_scalar (n : Int) (key : String) (value : Obj) :
    objSafeSet (.scalar n) key value = ([], .panic) := by
  rw [objSafeSet.eq_def]

theorem objSafeSet_preader (pk : List String) (r : Obj) (key : String) (value : Obj) :
    objSafeSet (.preader pk r) key value = ([], .panic) := by
  rw [objSafeSet.eq_def]

theorem objSafeSet_mapo (c : Caps) (es : List (String × Obj)) (key : String) (value : Obj) :
    objSafeSet (.mapo c es) key value = ([.eset key], .ok (alookup es key).isNone) := by
  rw [objSafeSet.eq_def]

theorem objSafeSet_erring (c : Caps) (code : Int) (key : String) (value : Obj) :
    objSafeSet (.erring c code) key value = ([.eset key], .err (.backend code)) := by
  rw [objSafeSet.eq_def]

theorem objSafeSet_pwriter (pk : List String) (w : Obj) (key : String) (value : Obj) :
    objSafeSet (.pwriter pk w) key value = pwSafeSet pk w key value := by
  rw [objSafeSet.eq_def]

theorem objSafeSet_prefixed (rk : List String) (r : Obj) (wk : List String) (w : Obj)
    (key : String) (value : Obj) :
    objSafeSet (.prefixed rk r wk w) key value = pwSafeSet wk w key value := by
  rw [objSafeSet.eq_def]

theorem pwSafeDel_eq (pk : List String) (w : Obj) (key : String) :
    pwSafeDel pk w key =
      (if isReader (writerBase pk w) then
        match walkSegsP "Del" [] (writerKey pk w) (writerBase pk w) with
        | .err e => ([], .err e)
        | .panic => ([], .panic)
        | .ok b =>
          if isSafeWriter b then
            match objSafeDel b key with
            | (effs, .ok _) => (effs, .ok ())
            | (effs, .err e) => (effs, .err (.wrapped (.mk "Del" (pk ++ [key]) none none e)))
            | (effs, .panic) => (effs, .panic)
          else if isWriter b then
            match objDel b key with
            | (effs, .ok true) => (effs, .ok ())
            | (effs, .ok false) => (effs, .err (.wrapped (.mk "Del" (pk ++ [key]) none none .notFound)))
            | (effs, .panic) => (effs, .panic)
          else ([], .err (.wrapped (.mk "Del" (pk ++ [key]) (some b) (some .writerW) .unexpectedType)))
       else ([], .err (.wrapped (.mk "Del" pk (some w) (some .readerW) .unexpectedType)))) := by
  rw [pwSafeDel.eq_def]
  by_cases h : isReader (writerBase pk w)
  · simp only [h, if_true, walkSegsP]
    cases h2 : walkSegs "Del" [] (writerKey pk w) (writerBase pk w) with
    | ok b => simp only [h2, stripRes]
    | err e => simp [h2, stripRes]
    | panic => simp [h2, stripRes]
  · simp [h]

theorem pwSafeSet_eq (pk : List String) (w : Obj) (key : String) (value : Obj) :
    pwSafeSet pk w key value =
      (if isReader (writerBase pk w) then
        match walkSegsP "Set" [] (writerKey pk w) (writerBase pk w) with
        | .err e => ([], .err e)
        | .panic => ([], .panic)
        | .ok b =>
          if isSafeWriter b then
            match objSafeSet b key value with
            | (effs, .ok ok) => (effs, .ok ok)
            | (effs, .err e) => (effs, .err (.wrapped (.mk "Set" (pk ++ [key]) none none e)))
            | (effs, .panic) => (effs, .panic)
          else if isWriter b then
            match objSet b key value with
            | (effs, .ok ok) => (effs, .ok ok)
            | (effs, .panic) => (effs, .panic)
          else ([], .err (.wrapped (.mk "Set" (pk ++ [key]) (some b) (some .writerW) .unexpectedType)))
       else ([], .err (.wrapped (.mk "Set" pk (some w) (some .readerW) .unexpectedType)))) := by
  rw [pwSafeSet.eq_def]
  by_cases h : isReader (writerBase pk w)
  · simp only [h, if_true, walkSegsP]
    cases h2 : walkSegs "Set" [] (writerKey pk w) (writerBase pk w) with
    | ok b => simp only [h2, stripRes]
    | err e => simp [h2, stripRes]
    | panic => simp [h2, stripRes]
  · simp [h]

theorem objDel_mapo (c : Caps) (es : List (String × Obj)) (key : String) :
    objDel (.mapo c es) key = ([.edel key], .ok (alookup es key).isSome) := by
  rw [objDel.eq_def]

theorem objDel_erring (c : Caps) (code : Int) (key : String) :
    objDel (.erring c code) key = ([.edel key], .ok false) := by
  rw [objDel.eq_def]

theorem objSet_mapo (c : Caps) (es : List (String × Obj)) (key : String) (value : Obj) :
    objSet (.mapo c es) key value = ([.eset key], .ok (alookup es key).isNone) := by
  rw [objSet.eq_def]

theorem objSet_erring (c : Caps) (code : Int) (key : String) (value : Obj) :
    objSet (.erring c code) key value = ([.eset key], .ok false) := by
  rw [objSet.eq_def]

theorem objPutP_onil (key : String) (hint : Ty) : objPutP .onil key hint = ([], .panic) := by
  rw [objPutP, objPut.eq_def]
  rfl

theorem objPutP_scalar (n : Int) (key : String) (hint : Ty) :
    objPutP (.scalar n) key hint = ([], .panic) := by
  rw [objPutP, objPut.eq_def]
  rfl

theorem objPutP_preader (pk : List String) (r : Obj) (key : String) (hint : Ty) :
    objPutP (.preader pk r) key hint = ([], .panic) := by
  rw [objPutP, objPut.eq_def]
  rfl

theorem objPutP_mapo (c : Caps) (es : List (String × Obj)) (key : String) (hint : Ty) :
    objPutP (.mapo c es) key hint =
      ([.eput key], .ok (match alookup es key with
                         | some v => v
                         | none => .mapo c [])) := by
  rw [objPutP, objPut.eq_def, alookupS_val]
  cases h : alookupS es key <;> simp [h, stripPW]

theorem objPutP_erring (c : Caps) (code : Int) (key : String) (hint : Ty) :
    objPutP (.erring c code) key hint = ([.eput key], .ok .onil) := by
  rw [objPutP, objPut.eq_def]
  rfl

theorem objPutP_pwriter (pk : List String) (w : Obj) (key : String) (hint : Ty) :
    objPutP (.pwriter pk w) key hint =
      (match objSafePutP (.pwriter pk w) key hint with
       | (effs, .ok v) => (effs, .ok v)
       | (effs, .err _) => (effs, .ok .onil)
       | (effs, .panic) => (effs, .panic)) := by
  rw [objPutP, objPut.eq_def, objSafePutP]
  cases h : objSafePut (.pwriter pk w) key hint with
  | mk effs r => cases r <;> simp [h, stripRes, stripPW]

theorem objPutP_prefixed (rk : List String) (r : Obj) (wk : List String) (w : Obj)
    (key : String) (hint : Ty) :
    objPutP (.prefixed rk r wk w) key hint =
      (match objSafePutP (.prefixed rk r wk w) key hint with
       | (effs, .ok v) => (effs, .ok v)
       | (effs, .err _) => (effs, .ok .onil)
       | (effs, .panic) => (effs, .panic)) := by
  rw [objPutP, objPut.eq_def, objSafePutP]
  cases h : objSafePut (.prefixed rk r wk w) key hint with
  | mk effs r2 => cases r2 <;> simp [h, stripRes, stripPW]

theorem objSafePutP_onil (key : String) (hint : Ty) :
    objSafePutP .onil key hint = ([], .panic) := by
  rw [objSafePutP, objSafePut.eq_def]
  rfl

theorem objSafePutP_scalar (n : Int) (key : String) (hint : Ty) :
    objSafePutP (.scalar n) key hint = ([], .panic) := by
  rw [objSafePutP, objSafePut.eq_def]
  rfl

theorem objSafePutP_preader (pk : List String) (r : Obj) (key : String) (hint : Ty) :
    objSafePutP (.preader pk r) key hint = ([], .panic) := by
  rw [objSafePutP, objSafePut.eq_def]
  rfl

theorem objSafePutP_mapo (c : Caps) (es : List (String × Obj)) (key : String) (hint : Ty) :
    objSafePutP (.mapo c es) key hint =
      ([.eput key], .ok (match alookup es key with
                         | some v => v
                         | none => .mapo c [])) := by
  rw [objSafePutP, objSafePut.eq_def, alookupS_val]
  cases h : alookupS es key <;> simp [h, stripRes]

theorem objSafePutP_erring (c : Caps) (code : Int) (key : String) (hint : Ty) :
    objSafePutP (.erring c code) key hint = ([.eput key], .err (.backend code)) := by
  rw [objSafePutP, objSafePut.eq_def]
  rfl

theorem objSafePutP_pwriter (pk : List String) (w : Obj) (key : String) (hint : Ty) :
    objSafePutP (.pwriter pk w) key hint =
      putSegsP [] (writerKey pk w ++ [key]) hint (writerBase pk w) := by
  simp only [objSafePutP, objSafePut.eq_def, pwSafePut.eq_def, putSegsP]
  cases h : putSegs [] (writerKey pk w ++ [key]) hint (writerBase pk w) with
  | mk effs r => cases r <;> simp [h, stripRes]

theorem objSafePutP_prefixed (rk : List String) (r : Obj) (wk : List String) (w : Obj)
    (key : String) (hint : Ty) :
    objSafePutP (.prefixed rk r wk w) key hint =
      putSegsP [] (writerKey wk w ++ [key]) hint (writerBase wk w) := by
  simp only [objSafePutP, objSafePut.eq_def, pwSafePut.eq_def, putSegsP]
  cases h : putSegs [] (writerKey wk w ++ [key]) hint (writerBase wk w) with
  | mk effs r2 => cases r2 <;> simp [h, stripRes]

theorem putSegsP_nil (done : List String) (hint : Ty) (w : Obj) :
    putSegsP done [] hint w = ([], .ok w) := by
  rw [putSegsP, putSegs.eq_def]
  rfl

theorem putSegsP_cons (done : List String) (key : String) (rest : List String)
    (hint : Ty) (w : Obj) :
    putSegsP done (key :: rest) hint w =
      (if isSafeWriter w then
        match objSafePutP w key hint with
        | (effs, .err e) => (effs, .err (.wrapped (.mk "Put" (done ++ [key]) (some w) none e)))
        | (effs, .panic) => (effs, .panic)
        | (effs, .ok v) =>
          match putSegsP (done ++ [key]) rest hint v with
          | (effs2, r) => (effs ++ effs2, r)
       else
        match objPutP w key hint with
        | (effs, .panic) => (effs, .panic)
        | (effs, .ok v) =>
          match putSegsP (done ++ [key]) rest hint v with
          | (effs2, r) => (effs ++ effs2, r)) := by
  rw [putSegsP, putSegs.eq_def]
  by_cases h : isSafeWriter w
  · simp only [h, if_true, objSafePutP]
    cases h2 : objSafePut w key hint with
    | mk effs r =>
      cases r with
      | ok v =>
        simp only [h2, stripRes, putSegsP]
        cases h3 : putSegs (done ++ [key]) rest hint v.val with
        | mk effs2 r2 => cases r2 <;> simp [h3, stripRes]
      | err e => simp [h2, stripRes]
      | panic => simp [h2, stripRes]
  · simp only [h, if_false, objPutP]
    cases h2 : objPut w key hint with
    | mk effs r =>
      cases r with
      | ok v =>
        simp only [h2, stripPW, putSegsP]
        cases h3 : putSegs (done ++ [key]) rest hint v.val with
        | mk effs2 r2 => cases r2 <;> simp [h3, stripRes]
      | panic => simp [h2, stripPW, stripRes]

theorem walkSegsP_append (op : String) (xs ys done : List String) (r : Obj) :
    walkSegsP op done (xs ++ ys) r =
      (match walkSegsP op done xs r with
       | .ok c => walkSegsP op (done ++ xs) ys c
       | .err e => .err e
       | .panic => .panic) := by
  induction xs generalizing done r with
  | nil => simp [walkSegsP_nil]
  | cons k ks ih =>
    rw [List.cons_append, walkSegsP_cons, walkSegsP_cons]
    cases h : lookupStepP r k with
    | ok v =>
      by_cases h2 : isReader v
      · simp only [h2, if_true]
        rw [ih]
        simp
      · simp [h2]
    | err e => simp
    | panic => simp

theorem putSegsP_append (xs ys done : List String) (hint : Ty) (w : Obj) :
    putSegsP done (xs ++ ys) hint w =
      (match putSegsP done xs hint w with
       | (effs, .ok c) =>
         (match putSegsP (done ++ xs) ys hint c with
          | (effs2, r) => (effs ++ effs2, r))
       | (effs, .err e) => (effs, .err e)
       | (effs, .panic) => (effs, .panic)) := by
  induction xs generalizing done w with
  | nil =>
    rw [List.nil_append, putSegsP_nil]
    cases h : putSegsP done ys hint w <;> simp [h]
  | cons k ks ih =>
    rw [List.cons_append, putSegsP_cons, putSegsP_cons]
    by_cases h : isSafeWriter w
    · simp only [h, if_true]
      cases h2 : objSafePutP w k hint with
      | mk effs r =>
        cases r with
        | ok v =>
          simp only [h2, ih]
          cases h3 : putSegsP (done ++ [k]) ks hint v with
          | mk effs2 r2 =>
            cases r2 <;> simp [h3, List.append_assoc]
        | err e => simp [h2]
        | panic => simp [h2]
    · simp only [h, if_false]
      cases h2 : objPutP w k hint with
      | mk effs r =>
        cases r with
        | ok v =>
          simp only [h2, ih]
          cases h3 : putSegsP (done ++ [k]) ks hint v with
          | mk effs2 r2 =>
            cases r2 <;> simp [h3, List.append_assoc]
        | panic => simp [h2]

theorem writerFlAux_nonwrapper (n : Nat) (b : Obj) (key : List String)
    (h : isWrapperW b = false) : writerFlAux (n + 1) b key = (b, key) := by
  cases b
  case pwriter k2 w2 => simp [isWrapperW] at h
  case prefixed rk r wk w2 => simp [isWrapperW] at h
  all_goals rfl

theorem writerFl_nonwrapper (pk : List String) (b : Obj) (h : isWrapperW b = false) :
    PrefixedWriter.writer pk b = (b, pk) := by
  rw [PrefixedWriter.writer]
  exact writerFlAux_nonwrapper 127 b pk h

theorem writerBase_nonwrapper (pk : List String) (b : Obj) (h : isWrapperW b = false) :
    writerBase pk b = b := by
  rw [writerBase, writerFl_nonwrapper pk b h]

theorem writerKey_nonwrapper (pk : List String) (b : Obj) (h : isWrapperW b = false) :
    writerKey pk b = pk := by
  rw [writerKey, writerFl_nonwrapper pk b h]

theorem writerFlAux_spec (n : Nat) (w : Obj) (key : List String)
    (h : chainDepthW w < n) :
    writerFlAux n w key = (chainBaseW w, chainKeysW w ++ key) := by
  induction n generalizing w key with
  | zero => omega
  | succ n ih =>
    cases w
    case pwriter k2 w2 =>
      rw [show writerFlAux (n + 1) (.pwriter k2 w2) key = writerFlAux n w2 (k2 ++ key) from rfl]
      rw [ih w2 (k2 ++ key) (by simp [chainDepthW] at h; omega)]
      simp [chainBaseW, chainKeysW]
    case prefixed rk r wk w2 =>
      rw [show writerFlAux (n + 1) (.prefixed rk r wk w2) key = writerFlAux n w2 (wk ++ key) from rfl]
      rw [ih w2 (wk ++ key) (by simp [chainDepthW] at h; omega)]
      simp [chainBaseW, chainKeysW]
    all_goals simp [chainBaseW, chainKeysW]
    case onil => rfl
    case scalar => rfl
    case mapo => rfl
    case erring => rfl
    case preader => rfl

theorem writerFlAux_deep (n : Nat) (w : Obj) (key : List String)
    (h : n ≤ chainDepthW w) :
    writerFlAux n w key = (.onil, []) := by
  induction n generalizing w key with
  | zero => rfl
  | succ n ih =>
    cases w
    case pwriter k2 w2 =>
      rw [show writerFlAux (n + 1) (.pwriter k2 w2) key = writerFlAux n w2 (k2 ++ key) from rfl]
      exact ih w2 (k2 ++ key) (by simp [chainDepthW] at h; omega)
    case prefixed rk r wk w2 =>
      rw [show writerFlAux (n + 1) (.prefixed rk r wk w2) key = writerFlAux n w2 (wk ++ key) from rfl]
      exact ih w2 (wk ++ key) (by simp [chainDepthW] at h; omega)
    all_goals simp [chainDepthW] at h

theorem readerFlAux_spec (n : Nat) (r : Obj) (key : List String)
    (h : chainDepthR r < n) :
    readerFlAux n r key = chainBaseR r := by
  induction n generalizing r key with
  | zero => omega
  | succ n ih =>
    cases r
    case preader k2 r2 =>
      rw [show readerFlAux (n + 1) (.preader k2 r2) key = readerFlAux n r2 (k2 ++ key) from rfl]
      rw [ih r2 (k2 ++ key) (by simp [chainDepthR] at h; omega)]
      simp [chainBaseR]
    case prefixed rk r2 wk w2 =>
      rw [show readerFlAux (n + 1) (.prefixed rk r2 wk w2) key = readerFlAux n r2 (rk ++ key) from rfl]
      rw [ih r2 (rk ++ key) (by simp [chainDepthR] at h; omega)]
      simp [chainBaseR]
    all_goals simp [chainBaseR]
    case onil => rfl
    case scalar => rfl
    case mapo => rfl
    case erring => rfl
    case pwriter => rfl

theorem readerFlAux_deep (n : Nat) (r : Obj) (key : List String)
    (h : n ≤ chainDepthR r) :
    readerFlAux n r key = .onil := by
  induction n generalizing r key with
  | zero => rfl
  | succ n ih =>
    cases r
    case preader k2 r2 =>
      rw [show readerFlAux (n + 1) (.preader k2 r2) key = readerFlAux n r2 (k2 ++ key) from rfl]
      exact ih r2 (k2 ++ key) (by simp [chainDepthR] at h; omega)
    case prefixed rk r2 wk w2 =>
      rw [show readerFlAux (n + 1) (.prefixed rk r2 wk w2) key = readerFlAux n r2 (rk ++ key) from rfl]
      exact ih r2 (rk ++ key) (by simp [chainDepthR] at h; omega)
    all_goals simp [chainDepthR] at h

theorem chainDepthW_nestPW (n : Nat) : chainDepthW (nestPW n) = n := by
  induction n with
  | zero => rfl
  | succ n ih => simp [nestPW, chainDepthW, ih]

theorem chainHasSafeW_nil (hint : Ty) (w : Obj) : chainHasSafeW [] hint w = false := by
  rw [chainHasSafeW.eq_def]

theorem chainHasSafeW_cons (key : String) (rest : List String) (hint : Ty) (w : Obj) :
    chainHasSafeW (key :: rest) hint w =
      (if isSafeWriter w then true
       else
        match objPutP w key hint with
        | (_, .ok v) => chainHasSafeW rest hint v
        | (_, .panic) => false) := by
  rw [chainHasSafeW.eq_def]
  by_cases h : isSafeWriter w
  · simp [h]
  · simp only [h, if_false, objPutP]
    cases h2 : objPut w key hint with
    | mk effs r => cases r <;> simp [h2, stripPW]

/-- C3: for every base container and every operation, resolving the
prefix walk with an empty key sequence returns the base container itself
unchanged — the loop body never runs, so no lookup touches the base. -/
theorem c3_empty_prefix_identity (r : Obj) (op : String) :
    PrefixedReader.base [] r op = .ok r := by
  rw [PrefixedReader.base, walkSegsP_nil]

/-- C1: if the prefix walk has consumed the segments `pre` reaching
container `c`, and the lookup of the next segment `seg` fails (not-found
or an inner safe error `e`, as `lookupStepP` dispatches it), the walk
over the full key returns the structured error with `Key = pre ++ [seg]`
(segments 0..i inclusive), `Got = c` (the container being queried) and
cause `e`; and if the lookup succeeds with a value `v` that does not
implement Reader, it returns the `UnexpectedType` error at that same
partial path with `Got = v` and `Want` = a Reader. -/
theorem c1_prefix_walk_failure (op : String) (r : Obj) (pre : List String) (seg : String)
    (post : List String) (c : Obj)
    (hreach : PrefixedReader.base pre r op = .ok c) :
    (∀ e, lookupStepP c seg = .err e →
      PrefixedReader.base (pre ++ seg :: post) r op =
        .err (.wrapped (.mk op (pre ++ [seg]) (some c) none e)))
    ∧ (∀ v, lookupStepP c seg = .ok v → isReader v = false →
      PrefixedReader.base (pre ++ seg :: post) r op =
        .err (.wrapped (.mk op (pre ++ [seg]) (some v) (some .readerW) .unexpectedType))) := by
  rw [PrefixedReader.base] at hreach
  constructor
  · intro e he
    rw [PrefixedReader.base, walkSegsP_append]
    simp only [hreach, List.nil_append]
    rw [walkSegsP_cons, he]
  · intro v hv hnr
    rw [PrefixedReader.base, walkSegsP_append]
    simp only [hreach, List.nil_append]
    rw [walkSegsP_cons, hv]
    simp [hnr]

theorem c1_prefix_walk_failure_witness :
    PrefixedReader.base [] (.mapo ⟨true, false, false, false⟩ [("a", .scalar 5)]) "Get" =
        .ok (.mapo ⟨true, false, false, false⟩ [("a", .scalar 5)])
    ∧ lookupStepP (.mapo ⟨true, false, false, false⟩ [("a", .scalar 5)]) "a" = .ok (.scalar 5)
    ∧ isReader (.scalar 5) = false
    ∧ PrefixedReader.base ["a"] (.mapo ⟨true, false, false, false⟩ [("a", .scalar 5)]) "Get" =
        .err (.wrapped (.mk "Get" ["a"] (some (.scalar 5)) (some .readerW) .unexpectedType)) := by
  have hnil : PrefixedReader.base []
      (.mapo ⟨true, false, false, false⟩ [("a", .scalar 5)]) "Get" =
      .ok (.mapo ⟨true, false, false, false⟩ [("a", .scalar 5)]) := by
    rw [PrefixedReader.base, walkSegsP_nil]
  refine ⟨hnil, ?_, rfl, ?_⟩
  · rw [lookupStepP_eq]
    simp [isSafeReader, objRawGetP_mapo, alookup, alookupS]
  · have h := (c1_prefix_walk_failure "Get"
      (.mapo ⟨true, false, false, false⟩ [("a", .scalar 5)]) [] "a" []
      (.mapo ⟨true, false, false, false⟩ [("a", .scalar 5)])
      hnil).2 (.scalar 5)
      (by rw [lookupStepP_eq]; simp [isSafeReader, objRawGetP_mapo, alookup, alookupS]) rfl
    simpa using h

/-- C4: when the prefix walk of `SafeGet` succeeds with container `b`,
the final lookup prefers `b`'s SafeReader capability whenever `b`
implements it, re-wrapping any error it returns with the full path
`pk ++ [key]` and `Got = b`; and if `b` implements only the plain Reader
capability, a false found-flag becomes a structured error with cause
`ErrNotFound` at that same full path. -/
theorem c4_safeget_final_lookup (pk : List String) (r : Obj) (key : String) (b : Obj)
    (hbase : PrefixedReader.base pk r "Get" = .ok b) :
    (isSafeReader b = true → ∀ e, objSafeGetP b key = .err e →
      PrefixedReader.SafeGet pk r key =
        .err (.wrapped (.mk "Get" (pk ++ [key]) (some b) none e)))
    ∧ (isSafeReader b = false → objRawGetP b key = .ok none →
      PrefixedReader.SafeGet pk r key =
        .err (.wrapped (.mk "Get" (pk ++ [key]) (some b) none .notFound))) := by
  rw [PrefixedReader.base] at hbase
  constructor
  · intro hsr e he
    rw [PrefixedReader.SafeGet, objSafeGetP_preader]
    simp only [hbase]
    rw [lookupStepP_eq]
    simp [hsr, he]
  · intro hsr hmiss
    rw [PrefixedReader.SafeGet, objSafeGetP_preader]
    simp only [hbase]
    rw [lookupStepP_eq]
    simp [hsr, hmiss]

theorem c4_safeget_final_lookup_witness :
    PrefixedReader.base [] (.mapo ⟨true, false, false, false⟩ []) "Get" =
        .ok (.mapo ⟨true, false, false, false⟩ [])
    ∧ isSafeReader (.mapo ⟨true, false, false, false⟩ []) = false
    ∧ objRawGetP (.mapo ⟨true, false, false, false⟩ []) "x" = .ok none
    ∧ PrefixedReader.SafeGet [] (.mapo ⟨true, false, false, false⟩ []) "x" =
        .err (.wrapped (.mk "Get" ["x"] (some (.mapo ⟨true, false, false, false⟩ [])) none .notFound)) := by
  have hnil : PrefixedReader.base [] (.mapo ⟨true, false, false, false⟩ []) "Get" =
      .ok (.mapo ⟨true, false, false, false⟩ []) := by
    rw [PrefixedReader.base, walkSegsP_nil]
  refine ⟨hnil, rfl, ?_, ?_⟩
  · rw [objRawGetP_mapo]
    rfl
  · have h := (c4_safeget_final_lookup [] (.mapo ⟨true, false, false, false⟩ []) "x"
      (.mapo ⟨true, false, false, false⟩ []) hnil).2 rfl
      (by rw [objRawGetP_mapo]; rfl)
    simpa using h

/-- C8: for every `PrefixedWriter` whose flattened base writer object
does not implement the Reader capability, `SafeDel` and `SafeSet` fail
immediately with an `UnexpectedType` error whose `Want` is a Reader and
whose `Got` is the wrapper's writer field `pw.W`, at `Key = pw.Key`,
before any navigation: the result is this error for every backing state,
and its effect list is empty (no backend write is invoked; the reader
check precedes the walk, so no lookup is performed either). -/
theorem c8_writer_without_reader (pk : List String) (w : Obj) (key : String) (value : Obj)
    (h : isReader (writerBase pk w) = false) :
    PrefixedWriter.SafeDel pk w key =
        ([], .err (.wrapped (.mk "Del" pk (some w) (some .readerW) .unexpectedType)))
    ∧ PrefixedWriter.SafeSet pk w key value =
        ([], .err (.wrapped (.mk "Set" pk (some w) (some .readerW) .unexpectedType))) := by
  constructor
  · rw [PrefixedWriter.SafeDel, objSafeDel_pwriter, pwSafeDel_eq]
    simp [h]
  · rw [PrefixedWriter.SafeSet, objSafeSet_pwriter, pwSafeSet_eq]
    simp [h]

theorem c8_writer_without_reader_witness :
    isReader (writerBase ["a"] (.erring ⟨false, false, true, false⟩ 7)) = false
    ∧ PrefixedWriter.SafeDel ["a"] (.erring ⟨false, false, true, false⟩ 7) "b" =
        ([], .err (.wrapped (.mk "Del" ["a"] (some (.erring ⟨false, false, true, false⟩ 7))
          (some .readerW) .unexpectedType)))
    ∧ PrefixedWriter.SafeSet ["a"] (.erring ⟨false, false, true, false⟩ 7) "b" (.scalar 9) =
        ([], .err (.wrapped (.mk "Set" ["a"] (some (.erring ⟨false, false, true, false⟩ 7))
          (some .readerW) .unexpectedType))) := by
  have hbase : writerBase ["a"] (Obj.erring ⟨false, false, true, false⟩ 7) =
      .erring ⟨false, false, true, false⟩ 7 := writerBase_nonwrapper _ _ rfl
  have h : isReader (writerBase ["a"] (Obj.erring ⟨false, false, true, false⟩ 7)) = false := by
    rw [hbase]
    rfl
  have hc := c8_writer_without_reader ["a"] (.erring ⟨false, false, true, false⟩ 7) "b"
    (.scalar 9) h
  exact ⟨h, hc.1, hc.2⟩

/-- C5: for every backing store `b` — a non-wrapper container
implementing Writer and Reader — whose lookup of the first segment `"a"`
fails with a NotFound-caused error `e` (key absent), `SafeSet` of key
`"b"` under prefix `["a"]` fails with the structured error at
`Key = ["a"]` exactly, whose cause is NotFound-caused, and its effect
list is empty: no backend write is invoked, so the backing store is left
unchanged by the failed call (no intermediate container is created). -/
theorem c5_safeset_missing_intermediate (b : Obj) (value : Obj) (e : Err)
    (hw : isWriter b = true) (hr : isReader b = true) (hnw : isWrapperW b = false)
    (hlook : lookupStepP b "a" = .err e) (hnf : causeNotFound e = true) :
    PrefixedWriter.SafeSet ["a"] b "b" value =
        ([], .err (.wrapped (.mk "Set" ["a"] (some b) none e)))
    ∧ causeNotFound (.wrapped (.mk "Set" ["a"] (some b) none e)) = true := by
  constructor
  · rw [PrefixedWriter.SafeSet, objSafeSet_pwriter, pwSafeSet_eq,
        writerBase_nonwrapper _ _ hnw, writerKey_nonwrapper _ _ hnw]
    simp only [hr, if_true]
    rw [walkSegsP_cons, hlook]
    simp
  · simp [causeNotFound, hnf]

theorem c5_safeset_missing_intermediate_witness :
    isWriter (.mapo ⟨true, false, true, false⟩ [] : Obj) = true
    ∧ isReader (.mapo ⟨true, false, true, false⟩ [] : Obj) = true
    ∧ isWrapperW (.mapo ⟨true, false, true, false⟩ [] : Obj) = false
    ∧ lookupStepP (.mapo ⟨true, false, true, false⟩ []) "a" = .err .notFound
    ∧ causeNotFound .notFound = true
    ∧ PrefixedWriter.SafeSet ["a"] (.mapo ⟨true, false, true, false⟩ []) "b" (.scalar 9) =
        ([], .err (.wrapped (.mk "Set" ["a"] (some (.mapo ⟨true, false, true, false⟩ []))
          none .notFound))) := by
  have hlook : lookupStepP (Obj.mapo ⟨true, false, true, false⟩ []) "a" = .err .notFound := by
    rw [lookupStepP_eq]
    simp [isSafeReader, objRawGetP_mapo, alookup, alookupS]
  refine ⟨rfl, rfl, rfl, hlook, rfl, ?_⟩
  exact (c5_safeset_missing_intermediate (.mapo ⟨true, false, true, false⟩ []) (.scalar 9)
    .notFound rfl rfl rfl hlook rfl).1

/-- C6: `SafePut` walks exactly the normalized key sequence — the
flattened prefix chain plus the trailing key — segment by segment from
the flattened base (first conjunct, the walk being `putSegsP`, whose
step invokes `Put` or `SafePut` and feeds each call's result to the next
step); and when the object `c` reached after consuming `pre` fails its
`SafePut` of the next segment `seg` with error `e`, the whole walk
returns the structured error with `Key = pre ++ [seg]` exactly (the
normalized path through that step), `Got = c` and cause `e`. -/
theorem c6_safeput_normalized_walk (pk : List String) (w : Obj) (key : String) (hint : Ty) :
    (PrefixedWriter.SafePut pk w key hint =
       putSegsP [] (writerKey pk w ++ [key]) hint (writerBase pk w))
    ∧ (∀ (pre : List String) (seg : String) (post : List String) (wb c : Obj)
         (effs : List Effect) (e : Err),
       (putSegsP [] pre hint wb).2 = .ok c →
       isSafeWriter c = true →
       objSafePutP c seg hint = (effs, .err e) →
       (putSegsP [] (pre ++ seg :: post) hint wb).2 =
         .err (.wrapped (.mk "Put" (pre ++ [seg]) (some c) none e))) := by
  constructor
  · rw [show PrefixedWriter.SafePut pk w key hint = objSafePutP (.pwriter pk w) key hint from rfl,
       objSafePutP_pwriter]
  · intro pre seg post wb c effs e h0 hsw he
    rw [putSegsP_append]
    cases h1 : putSegsP [] pre hint wb with
    | mk effs0 r0 =>
      rw [h1] at h0
      simp only at h0
      subst h0
      simp only [List.nil_append]
      rw [putSegsP_cons]
      simp only [hsw, if_true]
      rw [he]

theorem c6_safeput_normalized_walk_witness :
    (putSegsP [] ["a"] .tmap
        (.mapo ⟨false, false, true, true⟩ [("a", .erring ⟨false, false, true, true⟩ 3)])).2 =
      .ok (.erring ⟨false, false, true, true⟩ 3)
    ∧ isSafeWriter (.erring ⟨false, false, true, true⟩ 3 : Obj) = true
    ∧ objSafePutP (.erring ⟨false, false, true, true⟩ 3) "b" .tmap =
        ([.eput "b"], .err (.backend 3))
    ∧ (putSegsP [] ["a", "b"] .tmap
        (.mapo ⟨false, false, true, true⟩ [("a", .erring ⟨false, false, true, true⟩ 3)])).2 =
      .err (.wrapped (.mk "Put" ["a", "b"]
        (some (.erring ⟨false, false, true, true⟩ 3)) none (.backend 3))) := by
  have h0 : (putSegsP [] ["a"] .tmap
      (Obj.mapo ⟨false, false, true, true⟩ [("a", .erring ⟨false, false, true, true⟩ 3)])).2 =
      .ok (.erring ⟨false, false, true, true⟩ 3) := by
    rw [putSegsP_cons]
    simp [isSafeWriter, objSafePutP_mapo, alookup, alookupS, putSegsP_nil]
  have he : objSafePutP (Obj.erring ⟨false, false, true, true⟩ 3) "b" .tmap =
      ([.eput "b"], .err (.backend 3)) := objSafePutP_erring _ _ _ _
  have hc := (c6_safeput_normalized_walk [] (.onil) "x" .tmap).2 ["a"] "b" []
    (.mapo ⟨false, false, true, true⟩ [("a", .erring ⟨false, false, true, true⟩ 3)])
    (.erring ⟨false, false, true, true⟩ 3) [.eput "b"] (.backend 3) h0 rfl he
  exact ⟨h0, rfl, he, by simpa using hc⟩

/-- C7: the recursive unwrapping of nested wrapper values during
flattening is a loop of at most 128 unwrap steps and is total: for every
input, the reader-side flattening returns the innermost base when the
wrapper chain has at most 127 layers and nil (`onil`) once the chain
reaches the 128-step bound, and the writer-side flattening likewise
returns the flattened base and key, or `(nil, nil)` at the bound. -/
theorem c7_flatten_depth_bound (pk : List String) (r w : Obj) :
    (chainDepthR r ≤ 127 → PrefixedReader.reader pk r = chainBaseR r)
    ∧ (128 ≤ chainDepthR r → PrefixedReader.reader pk r = .onil)
    ∧ (chainDepthW w ≤ 127 → PrefixedWriter.writer pk w = (chainBaseW w, chainKeysW w ++ pk))
    ∧ (128 ≤ chainDepthW w → PrefixedWriter.writer pk w = (.onil, [])) := by
  refine ⟨?_, ?_, ?_, ?_⟩
  · intro h
    rw [PrefixedReader.reader]
    exact readerFlAux_spec 128 r pk (by omega)
  · intro h
    rw [PrefixedReader.reader]
    exact readerFlAux_deep 128 r pk (by omega)
  · intro h
    rw [PrefixedWriter.writer]
    exact writerFlAux_spec 128 w pk (by omega)
  · intro h
    rw [PrefixedWriter.writer]
    exact writerFlAux_deep 128 w pk (by omega)

theorem c7_flatten_depth_bound_witness :
    chainDepthR (.preader ["a"] (.mapo ⟨true, true, true, true⟩ [])) ≤ 127
    ∧ PrefixedReader.reader ["b"] (.preader ["a"] (.mapo ⟨true, true, true, true⟩ [])) =
        .mapo ⟨true, true, true, true⟩ []
    ∧ 128 ≤ chainDepthW (nestPW 128)
    ∧ PrefixedWriter.writer ["b"] (nestPW 128) = (.onil, []) := by
  have hdeep : 128 ≤ chainDepthW (nestPW 128) := le_of_eq (chainDepthW_nestPW 128).symm
  refine ⟨by decide, ?_, hdeep, ?_⟩
  · exact (c7_flatten_depth_bound ["b"] (.preader ["a"] (.mapo ⟨true, true, true, true⟩ []))
      .onil).1 (by decide)
  · exact (c7_flatten_depth_bound ["b"] .onil (nestPW 128)).2.2.2 hdeep

/-- C9: `Map.SafeGet` evaluated on the inputs that decide the claim: for
the map `{"a": nil}` the key `"a"` is present but the stored nil
interface makes `v.IsZero()` true, so the call returns the `ErrNotFound`
error instead of the stored value; a present non-zero value is returned
with a nil error; and for an absent key `reflect.Value.IsZero` is called
on the invalid zero `reflect.Value`, which panics instead of returning a
NotFound error. -/
theorem c9_map_safeget_eval :
    Map.SafeGet [("a", .vnil)] "a" = .errNotFound
    ∧ Map.SafeGet [("a", .vint 3)] "a" = .ok (.vint 3)
    ∧ Map.SafeGet [] "a" = .panicked := by
  exact ⟨rfl, rfl, rfl⟩

theorem putSegsP_no_safewriter_ne_err (rest : List String) (hint : Ty) :
    ∀ (w : Obj) (done : List String), chainHasSafeW rest hint w = false →
      ∀ (e : Err), (putSegsP done rest hint w).2 ≠ .err e := by
  induction rest with
  | nil =>
    intro w done h e
    rw [putSegsP_nil]
    simp
  | cons k ks ih =>
    intro w done h e
    rw [chainHasSafeW_cons] at h
    by_cases hsw : isSafeWriter w
    · simp [hsw] at h
    · rw [if_neg hsw] at h
      rw [putSegsP_cons, if_neg hsw]
      cases h2 : objPutP w k hint with
      | mk effs r =>
        cases r with
        | ok v =>
          rw [h2] at h
          exact ih v (done ++ [k]) h e
        | panic => simp

/-- C10 (amended): for every `PrefixedWriter` whose `SafePut` walk meets
no object implementing `SafeWriter`, `SafePut` never returns a non-nil
error: the plain-Writer branch assigns the sub-writer returned by `Put`
without checking it, so no step is ever converted into a returned error
— the call either returns a nil error or, when a nil sub-writer is
produced before the last step (or flattening was exhausted), panics on
the nil-interface `Put` call instead of returning. -/
theorem c10_put_plain_chain_never_errors (pk : List String) (w : Obj) (key : String)
    (hint : Ty)
    (h : chainHasSafeW (writerKey pk w ++ [key]) hint (writerBase pk w) = false) :
    ∀ e, (PrefixedWriter.SafePut pk w key hint).2 ≠ .err e := by
  intro e
  rw [show PrefixedWriter.SafePut pk w key hint = objSafePutP (.pwriter pk w) key hint from rfl,
     objSafePutP_pwriter]
  exact putSegsP_no_safewriter_ne_err _ hint _ [] h e

/-- C10 counterexample to the claim as stated: a `PrefixedWriter` with
prefix `["a"]` over a plain Writer whose `Put` returns a nil sub-writer.
Its Put chain contains no `SafeWriter` and flattening succeeds, yet
`SafePut("b", …)` does not return a nil error — the second step calls
`Put` on the nil sub-writer, a nil-interface method call (panic). -/
theorem c10_counterexample :
    chainHasSafeW
        (writerKey ["a"] (.erring ⟨false, false, true, false⟩ 0) ++ ["b"]) .tmap
        (writerBase ["a"] (.erring ⟨false, false, true, false⟩ 0)) = false
    ∧ (PrefixedWriter.SafePut ["a"] (.erring ⟨false, false, true, false⟩ 0) "b" .tmap).2 =
        .panic := by
  have hb : writerBase ["a"] (Obj.erring ⟨false, false, true, false⟩ 0) =
      .erring ⟨false, false, true, false⟩ 0 := writerBase_nonwrapper _ _ rfl
  have hk : writerKey ["a"] (Obj.erring ⟨false, false, true, false⟩ 0) = ["a"] :=
    writerKey_nonwrapper _ _ rfl
  constructor
  · rw [hb, hk]
    simp [chainHasSafeW_cons, chainHasSafeW_nil, isSafeWriter, objPutP_erring, objPutP_onil]
  · rw [show PrefixedWriter.SafePut ["a"] (.erring ⟨false, false, true, false⟩ 0) "b" .tmap =
        objSafePutP (.pwriter ["a"] (.erring ⟨false, false, true, false⟩ 0)) "b" .tmap from rfl,
       objSafePutP_pwriter, hb, hk]
    simp [putSegsP_cons, putSegsP_nil, isSafeWriter, objPutP_erring, objPutP_onil]

theorem c10_put_plain_chain_never_errors_witness :
    chainHasSafeW
        (writerKey [] (.erring ⟨false, false, true, false⟩ 0) ++ ["b"]) .tmap
        (writerBase [] (.erring ⟨false, false, true, false⟩ 0)) = false
    ∧ (PrefixedWriter.SafePut [] (.erring ⟨false, false, true, false⟩ 0) "b" .tmap).2 ≠
        .err .notFound := by
  have hb : writerBase [] (Obj.erring ⟨false, false, true, false⟩ 0) =
      .erring ⟨false, false, true, false⟩ 0 := writerBase_nonwrapper _ _ rfl
  have hk : writerKey [] (Obj.erring ⟨false, false, true, false⟩ 0) = [] :=
    writerKey_nonwrapper _ _ rfl
  have h : chainHasSafeW
      (writerKey [] (Obj.erring ⟨false, false, true, false⟩ 0) ++ ["b"]) .tmap
      (writerBase [] (Obj.erring ⟨false, false, true, false⟩ 0)) = false := by
    rw [hb, hk]
    simp [chainHasSafeW_cons, chainHasSafeW_nil, isSafeWriter, objPutP_erring]
  exact ⟨h, c10_put_plain_chain_never_errors [] (.erring ⟨false, false, true, false⟩ 0)
    "b" .tmap h .notFound⟩

theorem lookupStepP_preader (pk : List String) (r : Obj) (key : String) :
    lookupStepP (.preader pk r) key = objSafeGetP (.preader pk r) key := by
  rw [lookupStepP_eq]
  simp [isSafeReader]

theorem c2_walk_agree (op op' : String) (b : Obj) :
    resAgree (walkSegsP op [] ["b"] (.preader ["a"] b)) (walkSegsP op' [] ["a", "b"] b) := by
  cases h1 : lookupStepP b "a" with
  | err e1 =>
    simp [walkSegsP_cons, walkSegsP_nil, lookupStepP_preader, objSafeGetP_preader, h1, resAgree]
  | panic =>
    simp [walkSegsP_cons, walkSegsP_nil, lookupStepP_preader, objSafeGetP_preader, h1, resAgree]
  | ok v =>
    by_cases h2 : isReader v
    · cases h3 : lookupStepP v "b" with
      | err e2 =>
        simp [walkSegsP_cons, walkSegsP_nil, lookupStepP_preader, objSafeGetP_preader,
          h1, h2, h3, resAgree]
      | panic =>
        simp [walkSegsP_cons, walkSegsP_nil, lookupStepP_preader, objSafeGetP_preader,
          h1, h2, h3, resAgree]
      | ok u =>
        by_cases h4 : isReader u
        · simp [walkSegsP_cons, walkSegsP_nil, lookupStepP_preader, objSafeGetP_preader,
            h1, h2, h3, h4, resAgree]
        · simp [walkSegsP_cons, walkSegsP_nil, lookupStepP_preader, objSafeGetP_preader,
            h1, h2, h3, h4, resAgree]
    · simp [walkSegsP_cons, walkSegsP_nil, lookupStepP_preader, objSafeGetP_preader,
        h1, h2, resAgree]

theorem c2_safeget_agree (b : Obj) (k : String) :
    resAgree (PrefixedReader.SafeGet ["b"] (.preader ["a"] b) k)
      (PrefixedReader.SafeGet ["a", "b"] b k) := by
  rw [PrefixedReader.SafeGet, PrefixedReader.SafeGet, objSafeGetP_preader, objSafeGetP_preader]
  have h := c2_walk_agree "Get" "Get" b
  cases hL : walkSegsP "Get" [] ["b"] (.preader ["a"] b) with
  | ok c =>
    cases hR : walkSegsP "Get" [] ["a", "b"] b with
    | ok c' =>
      rw [hL, hR] at h
      simp only [resAgree] at h
      subst h
      simp only [hL, hR]
      cases h5 : lookupStepP c k <;> simp [resAgree]
    | err e => rw [hL, hR] at h; simp [resAgree] at h
    | panic => rw [hL, hR] at h; simp [resAgree] at h
  | err e =>
    cases hR : walkSegsP "Get" [] ["a", "b"] b with
    | ok c' => rw [hL, hR] at h; simp [resAgree] at h
    | err e' => simp [hL, hR, resAgree]
    | panic => rw [hL, hR] at h; simp [resAgree] at h
  | panic =>
    cases hR : walkSegsP "Get" [] ["a", "b"] b with
    | ok c' => rw [hL, hR] at h; simp [resAgree] at h
    | err e' => rw [hL, hR] at h; simp [resAgree] at h
    | panic => simp [hL, hR, resAgree]

theorem c2_get_eq (b : Obj) (k : String) :
    PrefixedReader.Get ["b"] (.preader ["a"] b) k = PrefixedReader.Get ["a", "b"] b k := by
  rw [PrefixedReader.Get, PrefixedReader.Get]
  have h := c2_safeget_agree b k
  cases hL : PrefixedReader.SafeGet ["b"] (.preader ["a"] b) k with
  | ok v =>
    cases hR : PrefixedReader.SafeGet ["a", "b"] b k with
    | ok u =>
      rw [hL, hR] at h
      simp only [resAgree] at h
      subst h
      simp [hL, hR]
    | err e => rw [hL, hR] at h; simp [resAgree] at h
    | panic => rw [hL, hR] at h; simp [resAgree] at h
  | err e =>
    cases hR : PrefixedReader.SafeGet ["a", "b"] b k with
    | ok u => rw [hL, hR] at h; simp [resAgree] at h
    | err e' => simp [hL, hR]
    | panic => rw [hL, hR] at h; simp [resAgree] at h
  | panic =>
    cases hR : PrefixedReader.SafeGet ["a", "b"] b k with
    | ok u => rw [hL, hR] at h; simp [resAgree] at h
    | err e' => rw [hL, hR] at h; simp [resAgree] at h
    | panic => simp [hL, hR]

theorem c2_list_eq (b : Obj) :
    PrefixedReader.ListKeys ["b"] (.preader ["a"] b) = PrefixedReader.ListKeys ["a", "b"] b := by
  rw [PrefixedReader.ListKeys, PrefixedReader.ListKeys, objList_preader, objList_preader]
  have h := c2_walk_agree "List" "List" b
  cases hL : walkSegsP "List" [] ["b"] (.preader ["a"] b) with
  | ok c =>
    cases hR : walkSegsP "List" [] ["a", "b"] b with
    | ok c' =>
      rw [hL, hR] at h
      simp only [resAgree] at h
      subst h
      simp [hL, hR]
    | err e => rw [hL, hR] at h; simp [resAgree] at h
    | panic => rw [hL, hR] at h; simp [resAgree] at h
  | err e =>
    cases hR : walkSegsP "List" [] ["a", "b"] b with
    | ok c' => rw [hL, hR] at h; simp [resAgree] at h
    | err e' => simp [hL, hR]
    | panic => rw [hL, hR] at h; simp [resAgree] at h
  | panic =>
    cases hR : walkSegsP "List" [] ["a", "b"] b with
    | ok c' => rw [hL, hR] at h; simp [resAgree] at h
    | err e' => rw [hL, hR] at h; simp [resAgree] at h
    | panic => simp [hL, hR]

/-- C2 (amended): wrapping a reader already prefixed with `["a"]` in a
new prefix `["b"]` behaves like a single wrapper with the flattened
prefix `["a", "b"]` (inner keys first, as the source's `Prepend`-based
merging produces — not `["b", "a"]`), and only up to the error value:
`Get` and `List` agree exactly, and `SafeGet` returns the same value on
success and fails (or panics) together, while the structured errors
themselves differ (the nested wrapper reports the outer step's path and
wraps the inner error; the flat wrapper reports the full flattened
path). -/
theorem c2_nested_vs_flat (b : Obj) (k : String) :
    PrefixedReader.Get ["b"] (.preader ["a"] b) k = PrefixedReader.Get ["a", "b"] b k
    ∧ PrefixedReader.ListKeys ["b"] (.preader ["a"] b) = PrefixedReader.ListKeys ["a", "b"] b
    ∧ resAgree (PrefixedReader.SafeGet ["b"] (.preader ["a"] b) k)
        (PrefixedReader.SafeGet ["a", "b"] b k) :=
  ⟨c2_get_eq b k, c2_list_eq b, c2_safeget_agree b k⟩


theorem lookupStepP_plain (c : Caps) (es : List (String × Obj)) (key : String)
    (h : c.safeReader = false) :
    lookupStepP (.mapo c es) key =
      (match alookup es key with
       | some v => .ok v
       | none => .err .notFound) := by
  rw [lookupStepP_eq]
  simp only [isSafeReader, h, Bool.false_eq_true, if_false, objRawGetP_mapo]
  cases alookup es key <;> simp

theorem c2eval_nested :
    PrefixedReader.SafeGet ["b"]
        (.preader ["a"] (.mapo ⟨true, false, false, false⟩
          [("a", .mapo ⟨true, false, false, false⟩
            [("b", .mapo ⟨true, false, false, false⟩ [("x", .scalar 1)])]),
           ("b", .mapo ⟨true, false, false, false⟩
            [("a", .mapo ⟨true, false, false, false⟩ [("x", .scalar 2)])])])) "x"
      = .ok (.scalar 1) := by
  have h1 : lookupStepP (.mapo ⟨true, false, false, false⟩
      [("a", .mapo ⟨true, false, false, false⟩
        [("b", .mapo ⟨true, false, false, false⟩ [("x", .scalar 1)])]),
       ("b", .mapo ⟨true, false, false, false⟩
        [("a", .mapo ⟨true, false, false, false⟩ [("x", .scalar 2)])])]) "a"
      = .ok (.mapo ⟨true, false, false, false⟩
        [("b", .mapo ⟨true, false, false, false⟩ [("x", .scalar 1)])]) := by
    rw [lookupStepP_plain _ _ _ rfl]
    rfl
  have h2 : walkSegsP "Get" [] ["a"] (.mapo ⟨true, false, false, false⟩
      [("a", .mapo ⟨true, false, false, false⟩
        [("b", .mapo ⟨true, false, false, false⟩ [("x", .scalar 1)])]),
       ("b", .mapo ⟨true, false, false, false⟩
        [("a", .mapo ⟨true, false, false, false⟩ [("x", .scalar 2)])])])
      = .ok (.mapo ⟨true, false, false, false⟩
        [("b", .mapo ⟨true, false, false, false⟩ [("x", .scalar 1)])]) := by
    rw [walkSegsP_cons, h1]
    simp only [isReader, if_true, walkSegsP_nil]
  have h3 : lookupStepP (.mapo ⟨true, false, false, false⟩
      [("b", .mapo ⟨true, false, false, false⟩ [("x", .scalar 1)])]) "b"
      = .ok (.mapo ⟨true, false, false, false⟩ [("x", .scalar 1)]) := by
    rw [lookupStepP_plain _ _ _ rfl]
    rfl
  have h4 : objSafeGetP (.preader ["a"] (.mapo ⟨true, false, false, false⟩
      [("a", .mapo ⟨true, false, false, false⟩
        [("b", .mapo ⟨true, false, false, false⟩ [("x", .scalar 1)])]),
       ("b", .mapo ⟨true, false, false, false⟩
        [("a", .mapo ⟨true, false, false, false⟩ [("x", .scalar 2)])])])) "b"
      = .ok (.mapo ⟨true, false, false, false⟩ [("x", .scalar 1)]) := by
    rw [objSafeGetP_preader, h2]
    simp only [h3]
  have h5 : walkSegsP "Get" [] ["b"] (.preader ["a"] (.mapo ⟨true, false, false, false⟩
      [("a", .mapo ⟨true, false, false, false⟩
        [("b", .mapo ⟨true, false, false, false⟩ [("x", .scalar 1)])]),
       ("b", .mapo ⟨true, false, false, false⟩
        [("a", .mapo ⟨true, false, false, false⟩ [("x", .scalar 2)])])]))
      = .ok (.mapo ⟨true, false, false, false⟩ [("x", .scalar 1)]) := by
    rw [walkSegsP_cons, lookupStepP_preader, h4]
    simp only [isReader, if_true, walkSegsP_nil]
  have h6 : lookupStepP (.mapo ⟨true, false, false, false⟩ [("x", .scalar 1)]) "x"
      = .ok (.scalar 1) := by
    rw [lookupStepP_plain _ _ _ rfl]
    rfl
  rw [PrefixedReader.SafeGet, objSafeGetP_preader, h5]
  simp only [h6]

theorem c2eval_flat :
    PrefixedReader.SafeGet ["b", "a"]
        (.mapo ⟨true, false, false, false⟩
          [("a", .mapo ⟨true, false, false, false⟩
            [("b", .mapo ⟨true, false, false, false⟩ [("x", .scalar 1)])]),
           ("b", .mapo ⟨true, false, false, false⟩
            [("a", .mapo ⟨true, false, false, false⟩ [("x", .scalar 2)])])]) "x"
      = .ok (.scalar 2) := by
  have h1 : lookupStepP (.mapo ⟨true, false, false, false⟩
      [("a", .mapo ⟨true, false, false, false⟩
        [("b", .mapo ⟨true, false, false, false⟩ [("x", .scalar 1)])]),
       ("b", .mapo ⟨true, false, false, false⟩
        [("a", .mapo ⟨true, false, false, false⟩ [("x", .scalar 2)])])]) "b"
      = .ok (.mapo ⟨true, false, false, false⟩
        [("a", .mapo ⟨true, false, false, false⟩ [("x", .scalar 2)])]) := by
    rw [lookupStepP_plain _ _ _ rfl]
    rfl
  have h2 : lookupStepP (.mapo ⟨true, false, false, false⟩
      [("a", .mapo ⟨true, false, false, false⟩ [("x", .scalar 2)])]) "a"
      = .ok (.mapo ⟨true, false, false, false⟩ [("x", .scalar 2)]) := by
    rw [lookupStepP_plain _ _ _ rfl]
    rfl
  have h3 : walkSegsP "Get" [] ["b", "a"] (.mapo ⟨true, false, false, false⟩
      [("a", .mapo ⟨true, false, false, false⟩
        [("b", .mapo ⟨true, false, false, false⟩ [("x", .scalar 1)])]),
       ("b", .mapo ⟨true, false, false, false⟩
        [("a", .mapo ⟨true, false, false, false⟩ [("x", .scalar 2)])])])
      = .ok (.mapo ⟨true, false, false, false⟩ [("x", .scalar 2)]) := by
    rw [walkSegsP_cons, h1]
    simp only [isReader, if_true]
    rw [walkSegsP_cons, h2]
    simp only [isReader, if_true, walkSegsP_nil]
  have h4 : lookupStepP (.mapo ⟨true, false, false, false⟩ [("x", .scalar 2)]) "x"
      = .ok (.scalar 2) := by
    rw [lookupStepP_plain _ _ _ rfl]
    rfl
  rw [PrefixedReader.SafeGet, objSafeGetP_preader, h3]
  simp only [h4]

/-- C2 counterexample to the claim as stated: over the base container
`{a: {b: {x: 1}}, b: {a: {x: 2}}}`, the reader wrapped with prefix
`["a"]` and then prefixed by `["b"]` reads `x = 1` (the nested lookup
resolves `base[a][b]`), while the single wrapper with prefix
`["b", "a"]` reads `x = 2` (it resolves `base[b][a]`), so the two do not
behave identically. -/
theorem c2_counterexample :
    PrefixedReader.Get ["b"]
        (.preader ["a"] (.mapo ⟨true, false, false, false⟩
          [("a", .mapo ⟨true, false, false, false⟩
            [("b", .mapo ⟨true, false, false, false⟩ [("x", .scalar 1)])]),
           ("b", .mapo ⟨true, false, false, false⟩
            [("a", .mapo ⟨true, false, false, false⟩ [("x", .scalar 2)])])])) "x"
      ≠ PrefixedReader.Get ["b", "a"]
        (.mapo ⟨true, false, false, false⟩
          [("a", .mapo ⟨true, false, false, false⟩
            [("b", .mapo ⟨true, false, false, false⟩ [("x", .scalar 1)])]),
           ("b", .mapo ⟨true, false, false, false⟩
            [("a", .mapo ⟨true, false, false, false⟩ [("x", .scalar 2)])])]) "x" := by
  rw [PrefixedReader.Get, PrefixedReader.Get, c2eval_nested,
    c2eval_flat]
  simp
